import Mathlib

/-!
Rotary encoder driver, its event-loop consumer and the clock driver.

A shallow embedding of `Linux ubuntu/Rotary_Encoder/rotary.c` (the interrupt
handlers, `rotary_poll`, `rotary_read`), of the event loop of
`Raspberry Pi/main1.c` (input handling, edit block, view handlers, without the
drawing calls) and of the text interface of `Linux ubuntu/ds1302/ds1302_driver.c`,
followed by the properties proved about them.

Conventions of the embedding:
* C `int` and `long` variables are `Int`. The `long` counter of the driver, the
  `long` delta of the loop and the `int` additions of the edit block and of the
  view handlers wrap at the ends of their ranges (`long` has `BITS_PER_LONG`
  bits, `int` has 32), and the theorems about them state the ranges in which
  no overflow occurs; the conversions `(int)x` and to `uint8_t` are explicit
  reductions; the 64-byte text buffers are a stated range.
* `unsigned long` jiffies values are `Nat`, and every operation on them is taken
  modulo `2 ^ BITS_PER_LONG`, as the kernel's wrap-safe comparison requires.
* kernel and libc services the code calls (`jiffies`, `gpio_get_value`,
  `msecs_to_jiffies`, `copy_to_user`, `wait_event_interruptible`,
  `clock_gettime`, `rand`, `pread`) are explicit arguments.
* text is `List Char`.
-/

namespace Rotary

/-! ## Kernel services -/

/-- The two platform parameters the code depends on: the width of `long` and
`unsigned long`, and the `msecs_to_jiffies` conversion (fixed by `HZ`). The
application is built for the machine the driver runs on and shares the
width. -/
structure Kernel where
  BITS_PER_LONG : Nat
  msecs_to_jiffies : Nat → Nat

/-- Number of values of an `unsigned long`. -/
def Kernel.ulong_range (k : Kernel) : Nat := 2 ^ k.BITS_PER_LONG

/-- Conversion of an integer result to `unsigned long` (reduction modulo
`2 ^ BITS_PER_LONG`). -/
def Kernel.ulong (k : Kernel) (x : Int) : Nat := (x % (k.ulong_range : Int)).toNat

/-- The cast `(long)x` of an `unsigned long`. -/
def Kernel.long (k : Kernel) (x : Nat) : Int :=
  if x % k.ulong_range < k.ulong_range / 2 then ((x % k.ulong_range : Nat) : Int)
  else ((x % k.ulong_range : Nat) : Int) - (k.ulong_range : Int)

/-- The value a `long` holds after an arithmetic result `v`: reduction to
`BITS_PER_LONG` bits, two's complement. -/
def Kernel.wrap_long (k : Kernel) (v : Int) : Int :=
  (v + ((k.ulong_range / 2 : Nat) : Int)) % (k.ulong_range : Int) -
    ((k.ulong_range / 2 : Nat) : Int)

/-- The range of a `long`, `LONG_MIN` to `LONG_MAX`. -/
def Kernel.in_long (k : Kernel) (v : Int) : Prop :=
  -((k.ulong_range / 2 : Nat) : Int) ≤ v ∧ v < ((k.ulong_range / 2 : Nat) : Int)

instance (k : Kernel) (v : Int) : Decidable (k.in_long v) := by
  unfold Kernel.in_long; infer_instance

/-- The kernel macro `time_before(a, b)`, that is `((long)((a) - (b)) < 0)` on
`unsigned long` operands. -/
def time_before (k : Kernel) (a b : Nat) : Bool :=
  decide (k.long (k.ulong ((a : Int) - (b : Int))) < 0)

/-- Levels of the GPIO lines, by line number (`true` is high). -/
abbrev Gpio := Nat → Bool

/-- The value `gpio_get_value` returns for a line: 1 when high, 0 when low. -/
def gpio_get_value (g : Gpio) (pin : Nat) : Int := if g pin then 1 else 0

/-! ## Constants of `rotary.c` -/

def S1_GPIO : Nat := 5
def S2_GPIO : Nat := 6
def SW_GPIO : Nat := 13
def DEBOUNCE_MS : Nat := 150
def ROTARY_DEBOUNCE_MS : Nat := 10

def POLLIN : Nat := 0x0001
def POLLRDNORM : Nat := 0x0040
def O_NONBLOCK : Nat := 0o4000
def EAGAIN : Int := 11
def EFAULT : Int := 14

/-- A 32-bit kernel built with `HZ = 100`, where `msecs_to_jiffies(m)` is
`(m + 9) / 10`. -/
def arm32_hz100 : Kernel := { BITS_PER_LONG := 32, msecs_to_jiffies := fun m => (m + 9) / 10 }

/-! ## Driver state -/

/-- The file-scope variables of `rotary.c`. `wake_ups` counts the calls of
`wake_up_interruptible(&rotary_wait_queue)` made so far. -/
structure State where
  rotary_value : Int
  button_status : Int
  last_rot_jiffies : Nat
  last_sw_jiffies : Nat
  data_ready : Int
  wake_ups : Nat
  deriving DecidableEq, Repr

/-- The values the variables are initialised with. -/
def State.init : State :=
  { rotary_value := 0, button_status := 1, last_rot_jiffies := 0, last_sw_jiffies := 0,
    data_ready := 0, wake_ups := 0 }

/-- A driver state whose two handlers last accepted a trigger at jiffies 1000. -/
def idle_since_1000 : State :=
  { rotary_value := 1, button_status := 1, last_rot_jiffies := 1000, last_sw_jiffies := 1000,
    data_ready := 0, wake_ups := 2 }

/-- A driver state with an event pending: counter -12, button pressed. -/
def pending_press : State :=
  { rotary_value := -12, button_status := 0, last_rot_jiffies := 700, last_sw_jiffies := 900,
    data_ready := 1, wake_ups := 13 }

/-! ## Interrupt handlers -/

/-- The debounce test at the head of `rotary_sw_handler`: the trigger is let
through unless `time_before(jiffies, last_sw_jiffies + msecs_to_jiffies(DEBOUNCE_MS))`. -/
def sw_accepts (k : Kernel) (jiffies : Nat) (s : State) : Bool :=
  !time_before k jiffies (k.ulong ((s.last_sw_jiffies : Int) + (k.msecs_to_jiffies DEBOUNCE_MS : Int)))

/-- The debounce test at the head of `rotary_int_handler`. -/
def rot_accepts (k : Kernel) (jiffies : Nat) (s : State) : Bool :=
  !time_before k jiffies
    (k.ulong ((s.last_rot_jiffies : Int) + (k.msecs_to_jiffies ROTARY_DEBOUNCE_MS : Int)))

/-- The function `rotary_sw_handler`, run at time `jiffies` with line levels `g`. -/
def rotary_sw_handler (k : Kernel) (jiffies : Nat) (g : Gpio) (s : State) : State :=
  if sw_accepts k jiffies s then
    { s with
      last_sw_jiffies := jiffies
      button_status := gpio_get_value g SW_GPIO
      data_ready := 1
      wake_ups := s.wake_ups + 1 }
  else s

/-- The function `rotary_int_handler`, run at time `jiffies` with line levels `g`.
The counter is a `long`: `rotary_value--` and `rotary_value++` wrap at the ends
of its range. -/
def rotary_int_handler (k : Kernel) (jiffies : Nat) (g : Gpio) (s : State) : State :=
  if rot_accepts k jiffies s then
    let v :=
      if gpio_get_value g S1_GPIO = 0 then
        (if gpio_get_value g S2_GPIO = 1 then k.wrap_long (s.rotary_value - 1)
          else k.wrap_long (s.rotary_value + 1))
      else s.rotary_value
    { s with
      last_rot_jiffies := jiffies
      rotary_value := v
      data_ready := 1
      wake_ups := s.wake_ups + 1 }
  else s

/-- Runs `rotary_int_handler` on a sequence of triggers, each given by its time
and the line levels sampled at it. -/
def run_rotary (k : Kernel) : List (Nat × Gpio) → State → State
  | [], s => s
  | t :: ts, s => run_rotary k ts (rotary_int_handler k t.1 t.2 s)

/-- Every trigger of the sequence passes the debounce test of
`rotary_int_handler` in the state it meets. -/
def all_accepted (k : Kernel) : List (Nat × Gpio) → State → Bool
  | [], _ => true
  | t :: ts, s => rot_accepts k t.1 s && all_accepted k ts (rotary_int_handler k t.1 t.2 s)

/-- The contribution of one accepted trigger as the specification words it, from
the sampled levels of phase A and phase B: with A low, -1 if B is high and +1
if B is low; nothing with A high. -/
def spec_contribution (a b : Bool) : Int :=
  if a then 0 else if b then -1 else 1

/-- The phase levels (A on `S1_GPIO`, B on `S2_GPIO`) sampled at each trigger. -/
def sampled_levels (ts : List (Nat × Gpio)) : List (Bool × Bool) :=
  ts.map (fun t => (t.2 S1_GPIO, t.2 S2_GPIO))

/-- No overflow: starting from the counter value `v`, the running sum of the
contributions of the sampled levels stays in the range of a `long` after every
trigger. -/
def sums_in_long (k : Kernel) (v : Int) : List (Bool × Bool) → Bool
  | [] => true
  | l :: ls =>
    decide (k.in_long (v + spec_contribution l.1 l.2)) &&
      sums_in_long k (v + spec_contribution l.1 l.2) ls

/-! ## Text produced by `snprintf` and consumed by `sscanf` -/

/-- The character of a decimal digit. -/
def digit_char (d : Nat) : Char := Char.ofNat (48 + d)

/-- Decimal digits of `n`, most significant first; `fuel` bounds the number of
digits and `n + 1` always suffices. -/
def print_digits : Nat → Nat → List Char
  | 0, _ => []
  | fuel + 1, n =>
    if n < 10 then [digit_char n] else print_digits fuel (n / 10) ++ [digit_char (n % 10)]

/-- Decimal text of an unsigned value. -/
def print_u (n : Nat) : List Char := print_digits (n + 1) n

/-- Text of the conversions `%d` and `%ld`. -/
def print_d (v : Int) : List Char :=
  if v < 0 then '-' :: print_u v.natAbs else print_u v.natAbs

/-- Text of the conversion `%02d`: zero padding up to two characters. -/
def print_02d (v : Int) : List Char :=
  if (print_d v).length < 2 then '0' :: print_d v else print_d v

/-- The C library predicate `isspace` in the C locale. -/
def isspace (c : Char) : Bool :=
  c = ' ' || c = '\t' || c = '\n' || c = '\x0b' || c = '\x0c' || c = '\r'

/-- The C library predicate `isdigit`. -/
def isdigit (c : Char) : Bool := decide (48 ≤ c.toNat) && decide (c.toNat ≤ 57)

/-- Drops leading white space. -/
def skip_space : List Char → List Char
  | [] => []
  | c :: cs => if isspace c then skip_space cs else c :: cs

/-- Reads the longest run of decimal digits, accumulating onto `acc`; returns the
value and the unread input. -/
def scan_digits : List Char → Nat → Nat × List Char
  | [], acc => (acc, [])
  | c :: cs, acc =>
    if isdigit c then scan_digits cs (acc * 10 + (c.toNat - 48)) else (acc, c :: cs)

/-- One `%d` (or `%ld`) conversion of `sscanf`: leading white space is skipped, an
optional sign is read, and at least one digit must follow. -/
def scan_d (inp : List Char) : Option (Int × List Char) :=
  match skip_space inp with
  | [] => none
  | c :: cs =>
    if c = '-' then
      match cs with
      | [] => none
      | c1 :: _ =>
        if isdigit c1 then some (-((scan_digits cs 0).1 : Int), (scan_digits cs 0).2) else none
    else if c = '+' then
      match cs with
      | [] => none
      | c1 :: _ =>
        if isdigit c1 then some (((scan_digits cs 0).1 : Int), (scan_digits cs 0).2) else none
    else if isdigit c then
      some (((scan_digits (c :: cs) 0).1 : Int), (scan_digits (c :: cs) 0).2)
    else none

/-- Directives of a `sscanf` format: a `%d`/`%ld` conversion, white space, or an
ordinary character. -/
inductive Directive where
  | conv_d
  | space
  | lit (c : Char)
  deriving DecidableEq, Repr

/-- The function `sscanf` on formats made of these directives: the list of values
assigned, in order. Its length is the count `sscanf` returns (a failure before
the first conversion returns 0 or EOF, both below 1). -/
def sscanf : List Directive → List Char → List Int
  | [], _ => []
  | Directive.conv_d :: fs, inp =>
    match scan_d inp with
    | some (v, rest) => v :: sscanf fs rest
    | none => []
  | Directive.space :: fs, inp => sscanf fs (skip_space inp)
  | Directive.lit c :: fs, inp =>
    match inp with
    | [] => []
    | c1 :: rest => if c1 = c then sscanf fs rest else []

/-- The range of a C `long` (64 bits at most). -/
def fits_long (v : Int) : Prop := -(2 ^ 63 : Int) ≤ v ∧ v < (2 ^ 63 : Int)

/-- The range of a C `int`. -/
def fits_int (v : Int) : Prop := -(2 ^ 31 : Int) ≤ v ∧ v < (2 ^ 31 : Int)

instance (v : Int) : Decidable (fits_long v) := by unfold fits_long; infer_instance

instance (v : Int) : Decidable (fits_int v) := by unfold fits_int; infer_instance

/-! ## File operations -/

/-- The function `rotary_poll`: the returned event mask, and the state it leaves. -/
def rotary_poll (s : State) : Nat × State :=
  if s.data_ready ≠ 0 then (POLLIN ||| POLLRDNORM, s) else (0, s)

/-- The text `snprintf(buff, sizeof(buff), "%ld %d\n", rotary_value, button_status)`
formats, before the limit of the buffer is applied. -/
def snapshot_text (s : State) : List Char :=
  print_d s.rotary_value ++ [' '] ++ print_d s.button_status ++ ['\n']

/-- Outcome of a `read` call: the returned value, the bytes stored in the
caller's buffer, and the driver state afterwards. -/
structure ReadResult where
  ret : Int
  user_buf : List Char
  state : State
  deriving DecidableEq, Repr

/-- The function `rotary_read`.
`wait_event_interruptible` gives the driver state in which a sleeping reader is
resumed, `f_flags` is `file->f_flags`, and `uncopied` is what `copy_to_user`
returns (the number of bytes it could not store, 0 on success). -/
def rotary_read (wait_event_interruptible : State → State) (f_flags : Nat) (uncopied : Nat)
    (s : State) : ReadResult :=
  if s.data_ready = 0 ∧ f_flags &&& O_NONBLOCK ≠ 0 then
    { ret := -EAGAIN, user_buf := [], state := s }
  else
    let s1 := if s.data_ready = 0 then wait_event_interruptible s else s
    let buff := (snapshot_text s1).take 63
    let len := (snapshot_text s1).length
    let s2 := { s1 with data_ready := 0 }
    if uncopied ≠ 0 then
      { ret := -EFAULT, user_buf := buff.take (len - uncopied), state := s2 }
    else
      { ret := (len : Int), user_buf := buff.take len, state := s2 }

end Rotary

namespace App

open Rotary

/-! ## Event loop of `main1.c` -/

/-- The C structure `struct timespec`. -/
structure timespec where
  tv_sec : Int
  tv_nsec : Int
  deriving DecidableEq, Repr

def STATE_MENU : Int := 0
def STATE_CLOCK : Int := 1
def STATE_WORLD : Int := 2
def STATE_GAME : Int := 3
def CLOCK_VIEW : Int := 0
def CLOCK_EDIT : Int := 1

/-- The file-scope variables of `main1.c`, the local `synced` of `main`, and
`rtc_writes`, the commands passed to `write(fd_rtc, ...)` so far. The enumerated
variables `current_state` and `clock_mode` hold their integer values. -/
structure Vars where
  current_state : Int
  clock_mode : Int
  rotary_val : Int
  last_rotary_val : Int
  rotary_delta : Int
  menu_index : Int
  menu_acc : Int
  press_start : timespec
  is_holding : Int
  rtc_cache : List Char
  last_rtc_poll : timespec
  edit_year : Int
  edit_mon : Int
  edit_day : Int
  edit_hour : Int
  edit_min : Int
  edit_sec : Int
  edit_field : Int
  world_city : Int
  world_acc : Int
  player_x : Int
  obs_x : Int
  obs_y : Int
  score : Int
  game_over : Int
  synced : Int
  rtc_writes : List (List Char)

/-- The function `reset_game`; `rand` is the value `rand()` returns. -/
def reset_game (rand : Nat) (a : Vars) : Vars :=
  { a with player_x := 60, obs_x := ((rand : Int)).tmod 110, obs_y := -10, score := 0, game_over := 0 }

/-- The variables at the top of the first loop iteration: the initialisers of the
file, `synced = 0`, and `reset_game()` already run. -/
def Vars.init (rand : Nat) : Vars :=
  reset_game rand
    { current_state := STATE_MENU, clock_mode := CLOCK_VIEW, rotary_val := 0,
      last_rotary_val := 0, rotary_delta := 0, menu_index := 0, menu_acc := 0,
      press_start := ⟨0, 0⟩, is_holding := 0, rtc_cache := "2000-01-01 00:00:00".toList,
      last_rtc_poll := ⟨0, 0⟩, edit_year := 0, edit_mon := 0, edit_day := 0, edit_hour := 0,
      edit_min := 0, edit_sec := 0, edit_field := 0, world_city := 0, world_acc := 0,
      player_x := 60, obs_x := 30, obs_y := -10, score := 0, game_over := 0, synced := 0,
      rtc_writes := [] }

/-- The function `diff_ms`. -/
def diff_ms (a b : timespec) : Int :=
  (a.tv_sec - b.tv_sec) * 1000 + (a.tv_nsec - b.tv_nsec).tdiv 1000000

/-- Exact time from `b` to `a` in nanoseconds. -/
def elapsed_ns (a b : timespec) : Int :=
  (a.tv_sec - b.tv_sec) * 1000000000 + (a.tv_nsec - b.tv_nsec)

/-- The format `"%ld %d"` of the snapshot line. -/
def SNAPSHOT_FORMAT : List Directive := [Directive.conv_d, Directive.space, Directive.conv_d]

/-- The format `"%d-%d-%d %d:%d:%d"` applied to `rtc_cache`. -/
def DATE_FORMAT : List Directive :=
  [Directive.conv_d, Directive.lit '-', Directive.conv_d, Directive.lit '-', Directive.conv_d,
   Directive.space, Directive.conv_d, Directive.lit ':', Directive.conv_d, Directive.lit ':',
   Directive.conv_d]

/-- The two gestures a release can be classified as. -/
inductive Gesture where
  | Click
  | Hold
  deriving DecidableEq, Repr

/-- The classification made on a release: `held = now.tv_sec - press_start.tv_sec`
and the test `held >= 2` selecting the hold branch over the short-click branch. -/
def classify_release (now press_start : timespec) : Gesture :=
  if now.tv_sec - press_start.tv_sec ≥ 2 then Gesture.Hold else Gesture.Click

/-- The command `snprintf(cmd, sizeof(cmd), "%02d %02d %02d %02d %02d %02d 1", ...)`
leaves in `cmd`. -/
def save_command (a : Vars) : List Char :=
  (print_02d (a.edit_year.tmod 100) ++ [' '] ++ print_02d a.edit_mon ++ [' '] ++
    print_02d a.edit_day ++ [' '] ++ print_02d a.edit_hour ++ [' '] ++
    print_02d a.edit_min ++ [' '] ++ print_02d a.edit_sec ++ [' ', '1']).take 63

/-- The hold branch of the release handling. -/
def hold_branch (a : Vars) : Vars :=
  if a.current_state = STATE_CLOCK then
    if a.clock_mode = CLOCK_VIEW then
      let a1 : Vars :=
        match sscanf DATE_FORMAT a.rtc_cache with
        | [y, m, d, hh, mm, ss] =>
          { a with edit_year := y, edit_mon := m, edit_day := d,
                   edit_hour := hh, edit_min := mm, edit_sec := ss }
        | _ =>
          { a with edit_year := 2000, edit_mon := 1, edit_day := 1,
                   edit_hour := 0, edit_min := 0, edit_sec := 0 }
      { a1 with edit_field := 0, clock_mode := CLOCK_EDIT }
    else
      { a with rtc_writes := a.rtc_writes ++ [save_command a], clock_mode := CLOCK_VIEW }
  else if a.current_state = STATE_GAME then
    { a with current_state := STATE_MENU }
  else a

/-- The short-click branch of the release handling. -/
def click_branch (rand : Nat) (a : Vars) : Vars :=
  if a.current_state = STATE_MENU then
    { a with current_state := a.menu_index + 1 }
  else if a.current_state = STATE_CLOCK then
    if a.clock_mode = CLOCK_VIEW then { a with current_state := STATE_MENU }
    else { a with edit_field := (a.edit_field + 1).tmod 6 }
  else if a.current_state = STATE_WORLD then
    { a with current_state := STATE_MENU }
  else if a.current_state = STATE_GAME then
    if a.game_over ≠ 0 then reset_game rand a else a
  else a

/-- The button handling of one snapshot: `btn == 0` starts a press unless one is
running; any other level, while `is_holding`, classifies the release, runs the
selected branch and clears `is_holding`. `now` is the time `clock_gettime`
returns. -/
def on_button (now : timespec) (rand : Nat) (btn : Int) (a : Vars) : Vars :=
  if btn = 0 then
    if a.is_holding = 0 then { a with press_start := now, is_holding := 1 } else a
  else
    if a.is_holding ≠ 0 then
      let a1 : Vars :=
        match classify_release now a.press_start with
        | Gesture.Hold => hold_branch a
        | Gesture.Click => click_branch rand a
      { a1 with is_holding := 0 }
    else a

/-- The body of `if (len > 0)`: the line in `buf` is scanned with `"%ld %d"`; when
at least the counter was converted, the delta is taken against
`last_rotary_val` (seeded on the first snapshot) and the button is handled.
`btn` keeps its initial value 1 when it was not converted. The subtraction is
`long` arithmetic of the machine `k` the application runs on and wraps at the
ends of that range. -/
def on_snapshot (k : Kernel) (now : timespec) (rand : Nat) (buf : List Char) (a : Vars) : Vars :=
  match sscanf SNAPSHOT_FORMAT buf with
  | [] => a
  | v :: rest =>
    let btn : Int := rest.headD 1
    let a1 : Vars := { a with rotary_val := v }
    let a2 : Vars :=
      if a1.synced = 0 then { a1 with last_rotary_val := a1.rotary_val, synced := 1 } else a1
    let a3 : Vars :=
      { a2 with rotary_delta := k.wrap_long (a2.rotary_val - a2.last_rotary_val),
                last_rotary_val := a2.rotary_val }
    on_button now rand btn a3

/-- The events for which `select` marks a descriptor readable. -/
def POLLIN_SET : Nat := 0x0040 ||| 0x0080 ||| 0x0001 ||| 0x0010 ||| 0x0008

/-- The input step of one loop iteration on the driver and the application
together: `select` consults `rotary_poll`; when the descriptor is readable the
loop calls `read` (the descriptor is blocking and `buf` is a valid buffer, so
`f_flags` has no `O_NONBLOCK` and `copy_to_user` stores everything) and hands a
positive-length result to `on_snapshot`. -/
def input_step (k : Kernel) (wait_event_interruptible : State → State) (now : timespec)
    (rand : Nat) (d : State) (a : Vars) : State × Vars :=
  if (rotary_poll d).1 &&& POLLIN_SET ≠ 0 then
    let r := rotary_read wait_event_interruptible 0 0 (rotary_poll d).2
    if r.ret > 0 then (r.state, on_snapshot k now rand r.user_buf a) else (r.state, a)
  else ((rotary_poll d).2, a)

/-- The variables of a loop that has synced at counter 0 and is idle in the menu. -/
def synced_at_zero : Vars := { Vars.init 0 with synced := 1 }

/-- The driver after two accepted clockwise detents from its initial state. -/
def two_detents : List (Nat × Gpio) := [(100, fun _ => false), (200, fun _ => false)]

/-- The variables while the button is held down in Clock/View, pressed at
`press_start`. -/
def clock_view_pressed (press_start : timespec) : Vars :=
  { Vars.init 0 with current_state := STATE_CLOCK, clock_mode := CLOCK_VIEW,
                     press_start := press_start, is_holding := 1, synced := 1 }

/-! ## The edit block and the view handlers -/

/-- The conversion `(int)x` of a `long`: reduction to 32 bits, two's complement. -/
def to_int (x : Int) : Int := (x + 2147483648) % 4294967296 - 2147483648

/-- The pair of statements `if (x < lo) x = lo; if (x > hi) x = hi;`. -/
def clamp_range (lo hi x : Int) : Int :=
  let x1 := if x < lo then lo else x
  if x1 > hi then hi else x1

/-- The block of `main` guarded by
`current_state == STATE_CLOCK && clock_mode == CLOCK_EDIT && rotary_delta != 0`:
the delta is taken and cleared, added to the field `edit_field` selects, and
all six fields are clamped. The addition is `int` arithmetic and wraps at the
ends of that range. -/
def edit_block (a : Vars) : Vars :=
  if a.current_state = STATE_CLOCK ∧ a.clock_mode = CLOCK_EDIT ∧ a.rotary_delta ≠ 0 then
    let d : Int := a.rotary_delta
    let a0 : Vars := { a with rotary_delta := 0 }
    let a1 : Vars :=
      if a0.edit_field = 0 then { a0 with edit_year := to_int (a0.edit_year + to_int d) }
      else if a0.edit_field = 1 then { a0 with edit_mon := to_int (a0.edit_mon + to_int d) }
      else if a0.edit_field = 2 then { a0 with edit_day := to_int (a0.edit_day + to_int d) }
      else if a0.edit_field = 3 then { a0 with edit_hour := to_int (a0.edit_hour + to_int d) }
      else if a0.edit_field = 4 then { a0 with edit_min := to_int (a0.edit_min + to_int d) }
      else if a0.edit_field = 5 then { a0 with edit_sec := to_int (a0.edit_sec + to_int d) }
      else a0
    { a1 with edit_year := clamp_range 2000 2099 a1.edit_year,
              edit_mon := clamp_range 1 12 a1.edit_mon,
              edit_day := clamp_range 1 31 a1.edit_day,
              edit_hour := clamp_range 0 23 a1.edit_hour,
              edit_min := clamp_range 0 59 a1.edit_min,
              edit_sec := clamp_range 0 59 a1.edit_sec }
  else a

/-- The value of the field `edit_field` selects (0 when it selects none). -/
def selected_field (a : Vars) : Int :=
  if a.edit_field = 0 then a.edit_year
  else if a.edit_field = 1 then a.edit_mon
  else if a.edit_field = 2 then a.edit_day
  else if a.edit_field = 3 then a.edit_hour
  else if a.edit_field = 4 then a.edit_min
  else if a.edit_field = 5 then a.edit_sec
  else 0

/-- The function `poll_rtc_if_due`. `now` is the time `clock_gettime` returns and
`rtc_bytes` what the clock device delivers to `pread` (nothing when `pread`
returns 0 or an error). The cache receives the first 19 bytes as a C string. -/
def poll_rtc_if_due (period_ms : Int) (now : timespec) (rtc_bytes : List Char) (a : Vars) : Vars :=
  if ¬ (a.last_rtc_poll.tv_sec = 0 ∧ a.last_rtc_poll.tv_nsec = 0) ∧
      diff_ms now a.last_rtc_poll < period_ms then a
  else
    let a1 : Vars := { a with last_rtc_poll := now }
    let tmp := rtc_bytes.take 63
    if tmp.length = 0 then a1
    else if tmp.length < 19 then a1
    else { a1 with rtc_cache := ((tmp.take 19).takeWhile (fun c => c ≠ Char.ofNat 0)).take 31 }

/-- The first loop of `handle_menu`, `while (menu_acc >= 1)`; it makes
`menu_acc` passes, which is the fuel it is run with. -/
def menu_down : Nat → Vars → Vars
  | 0, a => a
  | fuel + 1, a =>
    if a.menu_acc ≥ 1 then
      menu_down fuel
        { a with menu_index := if a.menu_index < 2 then a.menu_index + 1 else a.menu_index,
                 menu_acc := a.menu_acc - 1 }
    else a

/-- The second loop of `handle_menu`, `while (menu_acc <= -1)`. -/
def menu_up : Nat → Vars → Vars
  | 0, a => a
  | fuel + 1, a =>
    if a.menu_acc ≤ -1 then
      menu_up fuel
        { a with menu_index := if a.menu_index > 0 then a.menu_index - 1 else a.menu_index,
                 menu_acc := a.menu_acc + 1 }
    else a

/-- The function `handle_menu`, without its drawing calls. The addition to the
accumulator is `int` arithmetic and wraps at the ends of that range. -/
def handle_menu (a : Vars) : Vars :=
  let a1 : Vars := { a with menu_acc := to_int (a.menu_acc + to_int a.rotary_delta), rotary_delta := 0 }
  let a2 : Vars := menu_down a1.menu_acc.toNat a1
  menu_up (-a2.menu_acc).toNat a2

/-- The function `handle_clock`: it only draws. -/
def handle_clock (a : Vars) : Vars := a

/-- An entry of the `cities` table. -/
structure City where
  tag : List Char
  name : List Char
  offset_hours : Int

/-- The table `cities`. -/
def cities : List City :=
  [ { tag := "[KR]".toList, name := "SEOUL".toList, offset_hours := 0 },
    { tag := "[JP]".toList, name := "TOKYO".toList, offset_hours := 0 },
    { tag := "[CN]".toList, name := "BEIJING".toList, offset_hours := -1 },
    { tag := "[VN]".toList, name := "HANOI".toList, offset_hours := -2 },
    { tag := "[FR]".toList, name := "PARIS".toList, offset_hours := -8 },
    { tag := "[US]".toList, name := "NEW YORK".toList, offset_hours := -14 } ]

/-- The macro `CITY_COUNT`. -/
def CITY_COUNT : Int := (cities.length : Int)

/-- The value `cities[i].offset_hours`; an index outside the table, undefined in
C, reads 0. -/
def city_offset (i : Int) : Int :=
  if 0 ≤ i then
    match cities.get? i.toNat with
    | some c => c.offset_hours
    | none => 0
  else 0

/-- The first loop of `handle_world`, `while (world_acc >= 1)`. -/
def world_next : Nat → Vars → Vars
  | 0, a => a
  | fuel + 1, a =>
    if a.world_acc ≥ 1 then
      world_next fuel
        { a with world_city := (a.world_city + 1).tmod CITY_COUNT, world_acc := a.world_acc - 1 }
    else a

/-- The second loop of `handle_world`, `while (world_acc <= -1)`. -/
def world_prev : Nat → Vars → Vars
  | 0, a => a
  | fuel + 1, a =>
    if a.world_acc ≤ -1 then
      world_prev fuel
        { a with world_city := (a.world_city - 1 + CITY_COUNT).tmod CITY_COUNT,
                 world_acc := a.world_acc + 1 }
    else a

/-- The function `handle_world`, without its drawing calls. The addition to the
accumulator is `int` arithmetic and wraps at the ends of that range. -/
def handle_world (a : Vars) : Vars :=
  let a1 : Vars := { a with world_acc := to_int (a.world_acc + to_int a.rotary_delta), rotary_delta := 0 }
  let a2 : Vars := world_next a1.world_acc.toNat a1
  world_prev (-a2.world_acc).toNat a2

/-- The format `"%d:%d:%d"` applied to `rtc_cache + 11`. -/
def TIME_FORMAT : List Directive :=
  [Directive.conv_d, Directive.lit ':', Directive.conv_d, Directive.lit ':', Directive.conv_d]

/-- The text `handle_world` formats into `tbuf` and draws, from the variables as
its loops left them: the cached time of day with the hour moved by the offset
of the selected city. -/
def world_tbuf (a : Vars) : List Char :=
  let hms : Int × Int × Int :=
    match sscanf TIME_FORMAT (a.rtc_cache.drop 11) with
    | [h, m, s] => (h, m, s)
    | _ => (0, 0, 0)
  let hh : Int := (hms.1 + city_offset a.world_city + 24).tmod 24
  (print_02d hh ++ [':'] ++ print_02d hms.2.1 ++ [':'] ++ print_02d hms.2.2).take 31

/-- The obstacle speed `handle_game` computes from the score. -/
def game_speed (score : Int) : Int :=
  let speed : Int := 2 + score.tdiv 5
  if speed > 10 then 10 else speed

/-- The function `handle_game`, without its drawing calls; `rand` is the value
`rand()` returns. The additions are `int` arithmetic and wrap at the ends of
that range. -/
def handle_game (rand : Nat) (a : Vars) : Vars :=
  if a.game_over ≠ 0 then a
  else
    let speed : Int := game_speed a.score
    let a1 : Vars := { a with obs_y := to_int (a.obs_y + speed) }
    let a2 : Vars :=
      if a1.obs_y > 64 then
        { a1 with obs_y := -10, obs_x := ((rand : Int)).tmod 110,
                  score := to_int (a1.score + 1) }
      else a1
    let a3 : Vars :=
      { a2 with player_x := to_int (a2.player_x + to_int (a2.rotary_delta * 4)),
                rotary_delta := 0 }
    let a4 : Vars := { a3 with player_x := if a3.player_x < 0 then 0 else a3.player_x }
    let a5 : Vars := { a4 with player_x := if a4.player_x > 118 then 118 else a4.player_x }
    if a5.obs_y > 50 ∧ (a5.player_x - a5.obs_x).natAbs < 10 then { a5 with game_over := 1 }
    else a5

/-- The `switch (current_state)` at the end of the loop body. -/
def dispatch (rand : Nat) (a : Vars) : Vars :=
  if a.current_state = STATE_MENU then handle_menu a
  else if a.current_state = STATE_CLOCK then handle_clock a
  else if a.current_state = STATE_WORLD then handle_world a
  else if a.current_state = STATE_GAME then handle_game rand a
  else handle_menu a

/-- What one loop iteration receives from outside: the clock readings and calls
of `rand()`, the bytes of the clock device, and the line `read` delivered from
the rotary device when `select` reported it readable with a positive length. -/
structure LoopInput where
  rtc_now : timespec
  rtc_bytes : List Char
  snapshot : Option (List Char)
  now : timespec
  rand_click : Nat
  rand_game : Nat

/-- One iteration of the `while (1)` loop of `main` on the variables, on the
machine `k`. -/
def loop_iteration (k : Kernel) (i : LoopInput) (a : Vars) : Vars :=
  let a1 : Vars :=
    if ¬ (a.current_state = STATE_CLOCK ∧ a.clock_mode = CLOCK_EDIT) then
      poll_rtc_if_due 200 i.rtc_now i.rtc_bytes a
    else a
  let a2 : Vars :=
    match i.snapshot with
    | some buf => on_snapshot k i.now i.rand_click buf a1
    | none => a1
  dispatch i.rand_game (edit_block a2)

/-- The states of the variables the loop can be in at the top of an iteration. -/
inductive Reachable (k : Kernel) : Vars → Prop where
  | init (rand : Nat) : Reachable k (Vars.init rand)
  | step (i : LoopInput) (a : Vars) : Reachable k a → Reachable k (loop_iteration k i a)

/-- The range of each edit field. -/
def fields_in_range (a : Vars) : Prop :=
  (2000 ≤ a.edit_year ∧ a.edit_year ≤ 2099) ∧ (1 ≤ a.edit_mon ∧ a.edit_mon ≤ 12) ∧
    (1 ≤ a.edit_day ∧ a.edit_day ≤ 31) ∧ (0 ≤ a.edit_hour ∧ a.edit_hour ≤ 23) ∧
    (0 ≤ a.edit_min ∧ a.edit_min ≤ 59) ∧ (0 ≤ a.edit_sec ∧ a.edit_sec ≤ 59)

instance (a : Vars) : Decidable (fields_in_range a) := by unfold fields_in_range; infer_instance

/-- The variables in Clock/Edit with 2099-12-31 23:59:59 in the fields, the field
`edit_field` selected and a pending delta. -/
def editing (edit_field delta : Int) : Vars :=
  { Vars.init 0 with current_state := STATE_CLOCK, clock_mode := CLOCK_EDIT, synced := 1,
                     edit_year := 2099, edit_mon := 12, edit_day := 31, edit_hour := 23,
                     edit_min := 59, edit_sec := 59, edit_field := edit_field,
                     rotary_delta := delta }

/-- The variables in the world clock with 23:00:00 cached and HANOI (offset -2)
selected. -/
def hanoi_at_23 : Vars :=
  { Vars.init 0 with current_state := STATE_WORLD, world_city := 3, synced := 1,
                     rtc_cache := "2024-12-25 23:00:00".toList }

/-- The variables in a running game at score 7 with the obstacle on row 63. -/
def obstacle_at_bottom : Vars :=
  { Vars.init 0 with current_state := STATE_GAME, synced := 1, score := 7, obs_y := 63,
                     obs_x := 100, player_x := 20 }

/-- The input of an iteration at second `t` in which the snapshot line `line` is
read and the clock device delivers nothing. -/
def snapshot_input (t : Int) (line : List Char) : LoopInput :=
  { rtc_now := ⟨t, 0⟩, rtc_bytes := [], snapshot := some line, now := ⟨t, 0⟩,
    rand_click := 0, rand_game := 0 }

/-- The variables after a click in the menu on CLOCK (press at 10 s, release at
11 s) and a hold in Clock/View (press at 20 s, release at 23 s). -/
def after_click_and_hold : Vars :=
  loop_iteration arm32_hz100 (snapshot_input 23 "0 1\n".toList)
    (loop_iteration arm32_hz100 (snapshot_input 20 "0 0\n".toList)
      (loop_iteration arm32_hz100 (snapshot_input 11 "0 1\n".toList)
        (loop_iteration arm32_hz100 (snapshot_input 10 "0 0\n".toList) (Vars.init 0))))

end App

namespace Ds1302

open Rotary

/-! ## Clock driver `ds1302_driver.c` -/

def EINVAL : Int := 22

/-- Conversion of an `int` argument to `uint8_t`. -/
def to_u8 (x : Int) : Nat := (x % 256).toNat

/-- The function `bcd2bin` on a `uint8_t`. -/
def bcd2bin (val : Nat) : Nat := ((val >>> 4) * 10 + (val &&& 0x0F)) % 256

/-- The function `bin2bcd` on a `uint8_t`. -/
def bin2bcd (val : Nat) : Nat := (((val / 10) <<< 4) + val % 10) % 256

/-- The format `"%d %d %d %d %d %d %d"` of `ds1302_write`. -/
def WRITE_FORMAT : List Directive :=
  [Directive.conv_d, Directive.space, Directive.conv_d, Directive.space, Directive.conv_d,
   Directive.space, Directive.conv_d, Directive.space, Directive.conv_d, Directive.space,
   Directive.conv_d, Directive.space, Directive.conv_d]

/-- The function `ds1302_set_time` as its effect on the clock registers of the
chip (seconds, minutes, hours, date, month, day, year, control): write
protection is lifted and the burst stores `buf[0] & 0x7F`, `buf[1]` to
`buf[6]` and a control byte 0. -/
def ds1302_set_time (buf : List Nat) : List Nat :=
  [buf.getD 0 0 &&& 0x7F, buf.getD 1 0, buf.getD 2 0, buf.getD 3 0, buf.getD 4 0, buf.getD 5 0,
   buf.getD 6 0, 0x00]

/-- The function `ds1302_read_time`: the burst read of the first seven registers. -/
def ds1302_read_time (chip : List Nat) : List Nat := chip.take 7

/-- The function `ds1302_write` on the `count` bytes `buf` of the caller:
the returned value and the registers of the chip afterwards. `uncopied` is what
`copy_from_user` returns. The scan stops at the terminating zero byte on its
own, so `kbuf` is scanned as `buf`. -/
def ds1302_write (uncopied : Nat) (buf : List Char) (chip : List Nat) : Int × List Nat :=
  if buf.length > 63 then (-EINVAL, chip)
  else if uncopied ≠ 0 then (-EFAULT, chip)
  else
    match sscanf WRITE_FORMAT buf with
    | [year, month, day, hour, min, sec, wday] =>
      ((buf.length : Int),
        ds1302_set_time
          [bin2bcd (to_u8 sec) &&& 0x7F, bin2bcd (to_u8 min), bin2bcd (to_u8 hour),
           bin2bcd (to_u8 day), bin2bcd (to_u8 month), bin2bcd (to_u8 wday),
           bin2bcd (to_u8 year), 0x00])
    | _ => (-EINVAL, chip)

/-- The line `ds1302_read` formats into `msg` from the registers of the chip. -/
def ds1302_msg (chip : List Nat) : List Char :=
  let time_reg := ds1302_read_time chip
  let sec := time_reg.getD 0 0 &&& 0x7F
  ['2', '0'] ++ print_02d (bcd2bin (time_reg.getD 6 0) : Nat) ++ ['-'] ++
    print_02d (bcd2bin (time_reg.getD 4 0) : Nat) ++ ['-'] ++
    print_02d (bcd2bin (time_reg.getD 3 0) : Nat) ++ [' '] ++
    print_02d (bcd2bin (time_reg.getD 2 0) : Nat) ++ [':'] ++
    print_02d (bcd2bin (time_reg.getD 1 0) : Nat) ++ [':'] ++
    print_02d (bcd2bin sec : Nat) ++ ['\n']

/-- The function `ds1302_read`: the bytes `simple_read_from_buffer` hands to a
caller asking for `count` bytes at offset `pos`. -/
def ds1302_read (chip : List Nat) (count pos : Nat) : List Char :=
  ((((ds1302_msg chip).take 63).take (ds1302_msg chip).length).drop pos).take count

end Ds1302

/-! # Properties of the driver -/

namespace Rotary

/-! ## Jiffies arithmetic -/

theorem Kernel.ulong_range_pos (k : Kernel) : 0 < k.ulong_range := by
  unfold Kernel.ulong_range; positivity

theorem Kernel.ulong_cast (k : Kernel) (x : Int) :
    ((k.ulong x : Nat) : Int) = x % (k.ulong_range : Int) := by
  have hpos : (0 : Int) < (k.ulong_range : Int) := by exact_mod_cast k.ulong_range_pos
  unfold Kernel.ulong
  exact Int.toNat_of_nonneg (Int.emod_nonneg _ (ne_of_gt hpos))

theorem Kernel.ulong_lt (k : Kernel) (x : Int) : k.ulong x < k.ulong_range := by
  have hpos : (0 : Int) < (k.ulong_range : Int) := by exact_mod_cast k.ulong_range_pos
  have h := Int.emod_lt_of_pos x hpos
  have h2 := k.ulong_cast x
  omega

theorem Kernel.ulong_range_even (k : Kernel) (hb : 0 < k.BITS_PER_LONG) :
    k.ulong_range = 2 * (k.ulong_range / 2) := by
  unfold Kernel.ulong_range
  obtain ⟨n, hn⟩ : ∃ n, k.BITS_PER_LONG = n + 1 := ⟨k.BITS_PER_LONG - 1, by omega⟩
  rw [hn, pow_succ]
  omega

/-- The comparison `time_before(now, last + w)` in terms of the unsigned
difference `now - last`. -/
theorem time_before_window (k : Kernel) (hb : 0 < k.BITS_PER_LONG) (now last w : Nat)
    (hd : k.ulong ((now : Int) - (last : Int)) < k.ulong_range / 2)
    (hw : w ≤ k.ulong_range / 2) :
    time_before k now (k.ulong ((last : Int) + (w : Int))) = true ↔
      k.ulong ((now : Int) - (last : Int)) < w := by
  have hpos : (0 : Int) < (k.ulong_range : Int) := by exact_mod_cast k.ulong_range_pos
  have heven := k.ulong_range_even hb
  have hdc := k.ulong_cast ((now : Int) - (last : Int))
  have hxc : ((k.ulong ((now : Int) - ((k.ulong ((last : Int) + (w : Int)) : Nat) : Int)) : Nat) : Int)
      = ((now : Int) - ((last : Int) + (w : Int)) % (k.ulong_range : Int)) % (k.ulong_range : Int) := by
    rw [k.ulong_cast, k.ulong_cast]
  have hxlt := k.ulong_lt ((now : Int) - ((k.ulong ((last : Int) + (w : Int)) : Nat) : Int))
  have hmod : ((now : Int) - ((last : Int) + (w : Int)) % (k.ulong_range : Int)) % (k.ulong_range : Int)
      = (((now : Int) - (last : Int)) % (k.ulong_range : Int) - (w : Int)) % (k.ulong_range : Int) := by
    rw [Int.sub_emod, Int.emod_emod_of_dvd _ (dvd_refl _), ← Int.sub_emod]
    rw [Int.sub_emod (((now : Int) - (last : Int)) % (k.ulong_range : Int)),
      Int.emod_emod_of_dvd _ (dvd_refl _), ← Int.sub_emod]
    congr 1; ring
  rw [hmod, ← hdc] at hxc
  set d := k.ulong ((now : Int) - (last : Int)) with hd_def
  set x := k.ulong ((now : Int) - ((k.ulong ((last : Int) + (w : Int)) : Nat) : Int)) with hx_def
  set W := k.ulong_range with hW
  unfold time_before Kernel.long
  rw [← hx_def, ← hW, Nat.mod_eq_of_lt hxlt]
  rw [decide_eq_true_iff]
  by_cases hlt : d < w
  · have hx : (x : Int) = (d : Int) - (w : Int) + (W : Int) := by
      rw [hxc]
      rw [← Int.add_mul_emod_self (b := (1 : Int))]
      rw [Int.emod_eq_of_lt] <;> omega
    have : ¬ x < W / 2 := by omega
    simp only [this, if_false]
    constructor
    · intro _; exact hlt
    · intro _; omega
  · have hx : (x : Int) = (d : Int) - (w : Int) := by
      rw [hxc, Int.emod_eq_of_lt] <;> omega
    have : x < W / 2 := by omega
    simp only [this, if_true]
    constructor
    · intro h; omega
    · intro h; omega

/-! ## Printing and scanning decimal text -/

theorem digit_char_facts (d : Nat) (hd : d < 10) :
    isdigit (digit_char d) = true ∧ (digit_char d).toNat - 48 = d ∧
      isspace (digit_char d) = false ∧ digit_char d ≠ '-' ∧ digit_char d ≠ '+' := by
  interval_cases d <;> decide

theorem print_digits_all_digits (fuel n : Nat) :
    ∀ c ∈ print_digits fuel n, ∃ d, d < 10 ∧ c = digit_char d := by
  induction fuel generalizing n with
  | zero => intro c hc; simp [print_digits] at hc
  | succ f ih =>
    intro c hc
    unfold print_digits at hc
    split at hc
    · rename_i hlt
      simp only [List.mem_singleton] at hc
      exact ⟨n, hlt, hc⟩
    · rcases List.mem_append.mp hc with h | h
      · exact ih _ c h
      · simp only [List.mem_singleton] at h
        exact ⟨n % 10, Nat.mod_lt _ (by decide), h⟩

theorem print_digits_ne_nil (fuel n : Nat) : print_digits (fuel + 1) n ≠ [] := by
  unfold print_digits
  split <;> simp

theorem scan_digits_print (fuel : Nat) :
    ∀ (n acc : Nat) (rest : List Char), n < fuel →
      scan_digits (print_digits fuel n ++ rest) acc =
        scan_digits rest (acc * 10 ^ (print_digits fuel n).length + n) := by
  induction fuel with
  | zero => intro n acc rest h; omega
  | succ f ih =>
    intro n acc rest hn
    unfold print_digits
    split
    · rename_i hlt
      obtain ⟨h1, h2, -⟩ := digit_char_facts n hlt
      simp only [List.singleton_append, scan_digits, h1, if_true, h2, List.length_singleton,
        pow_one, List.nil_append]
      rfl
    · rename_i hge
      have hlt : n / 10 < f := by omega
      obtain ⟨h1, h2, -⟩ := digit_char_facts (n % 10) (Nat.mod_lt _ (by decide))
      rw [List.append_assoc, ih (n / 10) acc _ hlt]
      simp only [List.singleton_append, scan_digits, h1, if_true, h2, List.length_append,
        List.length_singleton, pow_succ]
      congr 1
      have := Nat.div_add_mod n 10
      nlinarith [this]

theorem scan_digits_stop (c : Char) (rest : List Char) (acc : Nat) (hc : isdigit c = false) :
    scan_digits (c :: rest) acc = (acc, c :: rest) := by
  simp [scan_digits, hc]

theorem scan_digits_print_u (n : Nat) (c : Char) (rest : List Char) (hc : isdigit c = false) :
    scan_digits (print_u n ++ c :: rest) 0 = (n, c :: rest) := by
  unfold print_u
  rw [scan_digits_print (n + 1) n 0 _ (Nat.lt_succ_self n), scan_digits_stop c rest _ hc]
  simp

theorem print_u_head (n : Nat) :
    ∃ c cs, print_u n = c :: cs ∧ isdigit c = true ∧ isspace c = false ∧ c ≠ '-' ∧ c ≠ '+' := by
  unfold print_u
  cases h : print_digits (n + 1) n with
  | nil => exact absurd h (print_digits_ne_nil n n)
  | cons c cs =>
    obtain ⟨d, hd, hcd⟩ := print_digits_all_digits (n + 1) n c (by rw [h]; simp)
    obtain ⟨h1, -, h3, h4, h5⟩ := digit_char_facts d hd
    subst hcd
    exact ⟨_, cs, rfl, h1, h3, h4, h5⟩

theorem skip_space_cons (c : Char) (cs : List Char) (hc : isspace c = false) :
    skip_space (c :: cs) = c :: cs := by
  simp [skip_space, hc]

theorem scan_d_minus (c1 : Char) (tail : List Char) (h1 : isdigit c1 = true) :
    scan_d ('-' :: c1 :: tail) =
      some (-((scan_digits (c1 :: tail) 0).1 : Int), (scan_digits (c1 :: tail) 0).2) := by
  unfold scan_d
  rw [skip_space_cons _ _ (by decide)]
  simp [h1]

theorem scan_d_digit (c1 : Char) (tail : List Char) (h1 : isdigit c1 = true)
    (h3 : isspace c1 = false) (h4 : c1 ≠ '-') (h5 : c1 ≠ '+') :
    scan_d (c1 :: tail) =
      some (((scan_digits (c1 :: tail) 0).1 : Int), (scan_digits (c1 :: tail) 0).2) := by
  unfold scan_d
  rw [skip_space_cons _ _ h3]
  simp [h1, h4, h5]

/-- A `%d` conversion reads back what `%d` printed, when a non-digit follows. -/
theorem scan_d_print_d (v : Int) (c : Char) (rest : List Char) (hc : isdigit c = false) :
    scan_d (print_d v ++ c :: rest) = some (v, c :: rest) := by
  obtain ⟨c0, cs, hcs, h1, h3, h4, h5⟩ := print_u_head v.natAbs
  have hscan := scan_digits_print_u v.natAbs c rest hc
  unfold print_d
  rw [hcs] at hscan ⊢
  rw [List.cons_append] at hscan
  by_cases hv : v < 0
  · rw [if_pos hv, List.cons_append, List.cons_append, scan_d_minus _ _ h1, hscan]
    simp only [Option.some.injEq, Prod.mk.injEq, and_true]
    omega
  · rw [if_neg hv, List.cons_append, scan_d_digit _ _ h1 h3 h4 h5, hscan]
    simp only [Option.some.injEq, Prod.mk.injEq, and_true]
    omega

theorem sscanf_snapshot_text (s : State) :
    sscanf [Directive.conv_d, Directive.space, Directive.conv_d] (snapshot_text s) =
      [s.rotary_value, s.button_status] := by
  unfold snapshot_text
  rw [List.append_assoc, List.append_assoc, List.singleton_append]
  simp only [sscanf]
  rw [scan_d_print_d _ ' ' _ (by decide)]
  simp only [skip_space]
  have : isspace ' ' = true := by decide
  simp only [this, if_true]
  obtain ⟨c0, cs, hcs, h1, h3, h4, h5⟩ := print_u_head s.button_status.natAbs
  have hskip : skip_space (print_d s.button_status ++ ['\n']) = print_d s.button_status ++ ['\n'] := by
    unfold print_d
    split
    · simp [skip_space, isspace]
    · rw [hcs]; simp [skip_space, h3]
  rw [hskip, scan_d_print_d _ '\n' [] (by decide)]

theorem print_digits_length_le (fuel : Nat) :
    ∀ (n m : Nat), 0 < m → n < 10 ^ m → (print_digits fuel n).length ≤ m := by
  induction fuel with
  | zero => intro n m _ _; simp [print_digits]
  | succ f ih =>
    intro n m hm hn
    unfold print_digits
    split
    · simpa using hm
    · rename_i hge
      obtain ⟨j, rfl⟩ : ∃ j, m = j + 1 := ⟨m - 1, by omega⟩
      have hj : 0 < j := by
        rcases Nat.eq_zero_or_pos j with h | h
        · subst h; simp at hn; omega
        · exact h
      have hdiv : n / 10 < 10 ^ j := by
        rw [pow_succ] at hn
        omega
      have := ih (n / 10) j hj hdiv
      simp only [List.length_append, List.length_singleton]
      omega

theorem print_d_length_le (v : Int) (m : Nat) (hm : 0 < m) (hv : v.natAbs < 10 ^ m) :
    (print_d v).length ≤ m + 1 := by
  have := print_digits_length_le (v.natAbs + 1) v.natAbs m hm hv
  unfold print_d print_u
  split
  · simp only [List.length_cons]; omega
  · omega

/-- The snapshot line of a `long` counter and an `int` level fits the 64-byte
buffer of `rotary_read`. -/
theorem snapshot_text_length_le (s : State) (hv : fits_long s.rotary_value)
    (hb : fits_int s.button_status) : (snapshot_text s).length ≤ 63 := by
  have h1 := print_d_length_le s.rotary_value 19 (by decide)
    (by unfold fits_long at hv; norm_num at hv ⊢; omega)
  have h2 := print_d_length_le s.button_status 10 (by decide)
    (by unfold fits_int at hb; norm_num at hb ⊢; omega)
  unfold snapshot_text
  simp only [List.length_append, List.length_singleton]
  omega

theorem rotary_read_ready (w : State → State) (f_flags uncopied : Nat) (s : State)
    (hr : s.data_ready ≠ 0) :
    rotary_read w f_flags uncopied s =
      if uncopied ≠ 0 then
        { ret := -EFAULT,
          user_buf := ((snapshot_text s).take 63).take ((snapshot_text s).length - uncopied),
          state := { s with data_ready := 0 } }
      else
        { ret := ((snapshot_text s).length : Int),
          user_buf := ((snapshot_text s).take 63).take (snapshot_text s).length,
          state := { s with data_ready := 0 } } := by
  unfold rotary_read
  simp [hr]

/-! ## The handlers and the file operations -/

theorem Kernel.wrap_long_of_in_long (k : Kernel) (v : Int) (h : k.in_long v) :
    k.wrap_long v = v := by
  unfold Kernel.in_long at h
  unfold Kernel.wrap_long
  have hpos : (0 : Int) < (k.ulong_range : Int) := by exact_mod_cast k.ulong_range_pos
  have hhalf : 2 * ((k.ulong_range / 2 : Nat) : Int) ≤ (k.ulong_range : Int) := by
    have : 2 * (k.ulong_range / 2) ≤ k.ulong_range := Nat.mul_div_le _ _
    exact_mod_cast this
  rw [Int.emod_eq_of_lt (by omega) (by omega)]
  omega

theorem Kernel.wrap_long_zero (k : Kernel) : k.wrap_long 0 = 0 := by
  unfold Kernel.wrap_long
  have hpos : 0 < k.ulong_range := k.ulong_range_pos
  have hlt : k.ulong_range / 2 < k.ulong_range := Nat.div_lt_self hpos (by decide)
  rw [zero_add, Int.emod_eq_of_lt (by omega) (by exact_mod_cast hlt)]
  omega

theorem run_rotary_value (k : Kernel) (ts : List (Nat × Gpio)) :
    ∀ s : State, all_accepted k ts s = true →
      sums_in_long k s.rotary_value (sampled_levels ts) = true →
      (run_rotary k ts s).rotary_value =
        s.rotary_value + ((sampled_levels ts).map (fun l => spec_contribution l.1 l.2)).sum := by
  induction ts with
  | nil => intro s _ _; simp [run_rotary, sampled_levels]
  | cons t ts ih =>
    intro s h hfit
    simp only [all_accepted, Bool.and_eq_true] at h
    obtain ⟨h1, h2⟩ := h
    simp only [sampled_levels, List.map_cons, sums_in_long, Bool.and_eq_true,
      decide_eq_true_eq] at hfit
    obtain ⟨hf1, hf2⟩ := hfit
    have hstep : (rotary_int_handler k t.1 t.2 s).rotary_value =
        s.rotary_value + spec_contribution (t.2 S1_GPIO) (t.2 S2_GPIO) := by
      unfold rotary_int_handler gpio_get_value
      rw [if_pos h1]
      unfold spec_contribution at hf1 ⊢
      cases hA : t.2 S1_GPIO <;> cases hB : t.2 S2_GPIO <;> simp [hA, hB] at hf1 ⊢
      · rw [k.wrap_long_of_in_long _ hf1]
      · have := k.wrap_long_of_in_long (s.rotary_value - 1) (by
          have e : s.rotary_value + -1 = s.rotary_value - 1 := by ring
          rw [← e]; exact hf1)
        rw [this]; ring
    have := ih _ h2 (by rw [hstep]; exact hf2)
    simp only [sampled_levels] at this
    simp only [run_rotary, sampled_levels, List.map_cons, List.sum_cons, this, hstep]
    ring

/-- C1 (amended): for each interrupt handler, on a kernel whose debounce window is
at most half the range of the jiffies counter, every trigger at a time `now`
whose unsigned jiffies difference to the last accepted timestamp,
`(now - last) mod 2 ^ BITS_PER_LONG`, lies below half that range is accepted
(the timestamp becomes `now`, the flag is set and one wake-up is issued) if and
only if that difference is at least the window; otherwise the handler returns
with the whole driver state unchanged. -/
theorem debounce_gate_within_half_range (k : Kernel) (now : Nat) (g : Gpio) (s : State)
    (hb : 0 < k.BITS_PER_LONG) :
    (k.msecs_to_jiffies ROTARY_DEBOUNCE_MS ≤ k.ulong_range / 2 →
      k.ulong ((now : Int) - (s.last_rot_jiffies : Int)) < k.ulong_range / 2 →
      (((rotary_int_handler k now g s).last_rot_jiffies = now ∧
          (rotary_int_handler k now g s).data_ready = 1 ∧
          (rotary_int_handler k now g s).wake_ups = s.wake_ups + 1) ↔
        k.msecs_to_jiffies ROTARY_DEBOUNCE_MS ≤ k.ulong ((now : Int) - (s.last_rot_jiffies : Int))) ∧
      (¬ k.msecs_to_jiffies ROTARY_DEBOUNCE_MS ≤ k.ulong ((now : Int) - (s.last_rot_jiffies : Int)) →
        rotary_int_handler k now g s = s)) ∧
    (k.msecs_to_jiffies DEBOUNCE_MS ≤ k.ulong_range / 2 →
      k.ulong ((now : Int) - (s.last_sw_jiffies : Int)) < k.ulong_range / 2 →
      (((rotary_sw_handler k now g s).last_sw_jiffies = now ∧
          (rotary_sw_handler k now g s).data_ready = 1 ∧
          (rotary_sw_handler k now g s).wake_ups = s.wake_ups + 1) ↔
        k.msecs_to_jiffies DEBOUNCE_MS ≤ k.ulong ((now : Int) - (s.last_sw_jiffies : Int))) ∧
      (¬ k.msecs_to_jiffies DEBOUNCE_MS ≤ k.ulong ((now : Int) - (s.last_sw_jiffies : Int)) →
        rotary_sw_handler k now g s = s)) := by
  constructor
  · intro hw hd
    have key := time_before_window k hb now s.last_rot_jiffies _ hd hw
    by_cases hacc : k.msecs_to_jiffies ROTARY_DEBOUNCE_MS ≤
        k.ulong ((now : Int) - (s.last_rot_jiffies : Int))
    · have hf : rot_accepts k now s = true := by
        unfold rot_accepts
        cases htb : time_before k now (k.ulong ((s.last_rot_jiffies : Int) +
            (k.msecs_to_jiffies ROTARY_DEBOUNCE_MS : Int)))
        · rfl
        · have := key.mp htb; omega
      simp [rotary_int_handler, hf, hacc]
    · have hf : rot_accepts k now s = false := by
        unfold rot_accepts
        rw [key.mpr (by omega)]
        rfl
      have hrej : rotary_int_handler k now g s = s := by simp [rotary_int_handler, hf]
      refine ⟨⟨fun h => ?_, fun h => absurd h hacc⟩, fun _ => hrej⟩
      rw [hrej] at h
      omega
  · intro hw hd
    have key := time_before_window k hb now s.last_sw_jiffies _ hd hw
    by_cases hacc : k.msecs_to_jiffies DEBOUNCE_MS ≤
        k.ulong ((now : Int) - (s.last_sw_jiffies : Int))
    · have hf : sw_accepts k now s = true := by
        unfold sw_accepts
        cases htb : time_before k now (k.ulong ((s.last_sw_jiffies : Int) +
            (k.msecs_to_jiffies DEBOUNCE_MS : Int)))
        · rfl
        · have := key.mp htb; omega
      simp [rotary_sw_handler, hf, hacc]
    · have hf : sw_accepts k now s = false := by
        unfold sw_accepts
        rw [key.mpr (by omega)]
        rfl
      have hrej : rotary_sw_handler k now g s = s := by simp [rotary_sw_handler, hf]
      refine ⟨⟨fun h => ?_, fun h => absurd h hacc⟩, fun _ => hrej⟩
      rw [hrej] at h
      omega

/-- Witness of C1 (amended): on the 32-bit `HZ = 100` kernel, a trigger at jiffies
1000 and one at jiffies 0 against the initial driver state. -/
theorem debounce_gate_within_half_range_witness :
    (((rotary_int_handler arm32_hz100 1000 (fun _ => false) State.init).last_rot_jiffies = 1000 ∧
        (rotary_int_handler arm32_hz100 1000 (fun _ => false) State.init).data_ready = 1 ∧
        (rotary_int_handler arm32_hz100 1000 (fun _ => false) State.init).wake_ups =
          State.init.wake_ups + 1) ↔
      arm32_hz100.msecs_to_jiffies ROTARY_DEBOUNCE_MS ≤
        arm32_hz100.ulong ((1000 : Int) - (State.init.last_rot_jiffies : Int))) ∧
    (¬ arm32_hz100.msecs_to_jiffies DEBOUNCE_MS ≤
        arm32_hz100.ulong ((0 : Int) - (State.init.last_sw_jiffies : Int)) →
      rotary_sw_handler arm32_hz100 0 (fun _ => false) State.init = State.init) :=
  ⟨((debounce_gate_within_half_range arm32_hz100 1000 (fun _ => false) State.init
        (by decide)).1 (by decide) (by decide)).1,
   ((debounce_gate_within_half_range arm32_hz100 0 (fun _ => false) State.init
        (by decide)).2 (by decide) (by decide)).2⟩

/-- C1 as stated fails: on the 32-bit `HZ = 100` kernel, with both last accepted
timestamps at jiffies 1000, a trigger at jiffies 2147484663 comes 2147483663
jiffies later, far more than either window (1 and 15 jiffies), yet
`time_before` still holds and both handlers return with the state unchanged. -/
theorem debounce_gate_rejects_past_half_range :
    arm32_hz100.msecs_to_jiffies ROTARY_DEBOUNCE_MS ≤
        2147484663 - idle_since_1000.last_rot_jiffies ∧
      rotary_int_handler arm32_hz100 2147484663 (fun _ => false) idle_since_1000 =
        idle_since_1000 ∧
      arm32_hz100.msecs_to_jiffies DEBOUNCE_MS ≤
        2147484663 - idle_since_1000.last_sw_jiffies ∧
      rotary_sw_handler arm32_hz100 2147484663 (fun _ => false) idle_since_1000 =
        idle_since_1000 := by
  decide

/-- C2: over any sequence of accepted triggers of `rotary_int_handler` during
which the `long` counter does not overflow, `rotary_value` ends at its initial
value plus the sum of the per-trigger contributions (with A low: -1 if B is
high, +1 if B is low), and two such sequences with the same sampled levels end
at the same value whatever their trigger times. -/
theorem rotary_value_sums_contributions (k : Kernel) (ts : List (Nat × Gpio)) (s : State)
    (h : all_accepted k ts s = true)
    (hfit : sums_in_long k s.rotary_value (sampled_levels ts) = true) :
    (run_rotary k ts s).rotary_value =
        s.rotary_value + ((sampled_levels ts).map (fun l => spec_contribution l.1 l.2)).sum ∧
      ∀ (k2 : Kernel) (ts2 : List (Nat × Gpio)) (s2 : State),
        all_accepted k2 ts2 s2 = true →
        sums_in_long k2 s2.rotary_value (sampled_levels ts2) = true →
        s2.rotary_value = s.rotary_value →
        sampled_levels ts2 = sampled_levels ts →
        (run_rotary k2 ts2 s2).rotary_value = (run_rotary k ts s).rotary_value := by
  refine ⟨run_rotary_value k ts s h hfit, ?_⟩
  intro k2 ts2 s2 h2 hfit2 hv hl
  rw [run_rotary_value k ts s h hfit, run_rotary_value k2 ts2 s2 h2 hfit2, hv, hl]

/-- Witness of C2: three accepted triggers (clockwise, clockwise, counter-clockwise)
from the initial state. -/
theorem rotary_value_sums_contributions_witness :
    (run_rotary arm32_hz100
        [(100, fun _ => false), (200, fun _ => false), (300, fun p => decide (p = 6))]
        State.init).rotary_value =
      State.init.rotary_value +
        ((sampled_levels
          [(100, fun _ => false), (200, fun _ => false), (300, fun p => decide (p = 6))]).map
          (fun l => spec_contribution l.1 l.2)).sum :=
  (rotary_value_sums_contributions arm32_hz100
    [(100, fun _ => false), (200, fun _ => false), (300, fun p => decide (p = 6))]
    State.init (by decide) (by decide)).1

/-- C3: an accepted trigger of `rotary_sw_handler` stores the level sampled from
the button line in `button_status`, whatever it held before, sets `data_ready`
to 1 and leaves `rotary_value` alone. -/
theorem sw_handler_latches_sampled_level (k : Kernel) (now : Nat) (g : Gpio) (s : State)
    (h : sw_accepts k now s = true) :
    (rotary_sw_handler k now g s).button_status = gpio_get_value g SW_GPIO ∧
      (rotary_sw_handler k now g s).data_ready = 1 ∧
      (rotary_sw_handler k now g s).rotary_value = s.rotary_value := by
  simp [rotary_sw_handler, h]

/-- Witness of C3: a press (line low) accepted at jiffies 500 from the initial
state. -/
theorem sw_handler_latches_sampled_level_witness :
    (rotary_sw_handler arm32_hz100 500 (fun _ => false) State.init).button_status =
        gpio_get_value (fun _ => false) SW_GPIO ∧
      (rotary_sw_handler arm32_hz100 500 (fun _ => false) State.init).data_ready = 1 ∧
      (rotary_sw_handler arm32_hz100 500 (fun _ => false) State.init).rotary_value =
        State.init.rotary_value :=
  sw_handler_latches_sampled_level arm32_hz100 500 (fun _ => false) State.init (by decide)

/-- C4: with `data_ready` set, `rotary_read`, blocking or not, clears `data_ready`
and leaves `rotary_value` and `button_status` alone; and when `copy_to_user`
stores the whole line, the caller receives the text
`"<rotary_value> <button_status>\n"` and the call returns its length. The
counter and the level range over the C types `long` and `int`. -/
theorem rotary_read_returns_snapshot (w : State → State) (f_flags uncopied : Nat) (s : State)
    (hr : s.data_ready ≠ 0) (hv : fits_long s.rotary_value) (hb : fits_int s.button_status) :
    (rotary_read w f_flags uncopied s).state.data_ready = 0 ∧
      (rotary_read w f_flags uncopied s).state.rotary_value = s.rotary_value ∧
      (rotary_read w f_flags uncopied s).state.button_status = s.button_status ∧
      (uncopied = 0 →
        (rotary_read w f_flags uncopied s).user_buf =
            print_d s.rotary_value ++ [' '] ++ print_d s.button_status ++ ['\n'] ∧
          (rotary_read w f_flags uncopied s).ret =
            ((print_d s.rotary_value ++ [' '] ++ print_d s.button_status ++ ['\n']).length : Int)) := by
  rw [rotary_read_ready w f_flags uncopied s hr]
  have hlen := snapshot_text_length_le s hv hb
  by_cases hu : uncopied = 0
  · subst hu
    simp only [ne_eq, not_true_eq_false, if_false, true_and, forall_const]
    rw [List.take_of_length_le hlen, List.take_of_length_le (le_refl _)]
    exact ⟨rfl, rfl⟩
  · simp [hu]

/-- Witness of C4: a blocking read of the state with counter -12, button pressed
and an event pending. -/
theorem rotary_read_returns_snapshot_witness :
    (rotary_read id 0 0 pending_press).state.data_ready = 0 ∧
      (rotary_read id 0 0 pending_press).user_buf = ['-', '1', '2', ' ', '0', '\n'] ∧
      (rotary_read id 0 0 pending_press).ret = 6 :=
  have h := rotary_read_returns_snapshot id 0 0 pending_press
    (by decide) (by decide) (by decide)
  ⟨h.1, (h.2.2.2 rfl).1, (h.2.2.2 rfl).2⟩

/-- C5: `rotary_read` returns `-EAGAIN` exactly when `O_NONBLOCK` is set in the
file flags and `data_ready` is 0, and in that case the driver state is
unchanged. -/
theorem rotary_read_would_block_iff (w : State → State) (f_flags uncopied : Nat) (s : State) :
    ((rotary_read w f_flags uncopied s).ret = -EAGAIN ↔
        (f_flags &&& O_NONBLOCK ≠ 0 ∧ s.data_ready = 0)) ∧
      ((rotary_read w f_flags uncopied s).ret = -EAGAIN →
        (rotary_read w f_flags uncopied s).state = s) := by
  unfold rotary_read
  by_cases h : s.data_ready = 0 ∧ f_flags &&& O_NONBLOCK ≠ 0
  · rw [if_pos h]
    exact ⟨⟨fun _ => ⟨h.2, h.1⟩, fun _ => rfl⟩, fun _ => rfl⟩
  · rw [if_neg h]
    have hne : ∀ n : Nat, (n : Int) ≠ -EAGAIN := by
      intro n; unfold EAGAIN; omega
    have hne2 : -EFAULT ≠ -EAGAIN := by decide
    by_cases hu : uncopied ≠ 0
    · rw [if_pos hu]
      exact ⟨⟨fun e => absurd e hne2, fun e => absurd ⟨e.2, e.1⟩ h⟩, fun e => absurd e hne2⟩
    · rw [if_neg hu]
      exact ⟨⟨fun e => absurd e (hne _), fun e => absurd ⟨e.2, e.1⟩ h⟩, fun e => absurd e (hne _)⟩

/-- C6: `rotary_poll` reports `POLLIN | POLLRDNORM` exactly when `data_ready` is
set and 0 exactly when it is clear, and leaves the driver state as it was. -/
theorem rotary_poll_reports_data_ready (s : State) :
    ((rotary_poll s).1 = (POLLIN ||| POLLRDNORM) ↔ s.data_ready ≠ 0) ∧
      ((rotary_poll s).1 = 0 ↔ s.data_ready = 0) ∧
      (rotary_poll s).2 = s := by
  unfold rotary_poll
  by_cases h : s.data_ready ≠ 0
  · rw [if_pos h]
    refine ⟨⟨fun _ => h, fun _ => rfl⟩, ⟨fun e => ?_, fun e => absurd e h⟩, rfl⟩
    exact absurd e (show ¬ ((POLLIN ||| POLLRDNORM : Nat) = 0) by decide)
  · rw [if_neg h]
    refine ⟨⟨fun e => ?_, fun e => absurd e h⟩, ⟨fun _ => not_not.mp h, fun _ => rfl⟩, rfl⟩
    exact absurd e.symm (show ¬ ((POLLIN ||| POLLRDNORM : Nat) = 0) by decide)

/-- C14 (amended): for two triggers of the same interrupt handler of which the
first is accepted, on a kernel whose debounce window is at most half the range
of the jiffies counter: a second trigger whose unsigned jiffies difference to
the first is below the window is rejected, in the state the first one left and
in any later state with the same last accepted timestamp, and the handler
returns with the whole driver state (so `rotary_value` and `button_status`)
unchanged. -/
theorem second_trigger_inside_window_rejected (k : Kernel) (t1 t2 : Nat) (g1 g2 : Gpio)
    (s : State) (hb : 0 < k.BITS_PER_LONG) :
    (k.msecs_to_jiffies ROTARY_DEBOUNCE_MS ≤ k.ulong_range / 2 →
      rot_accepts k t1 s = true →
      k.ulong ((t2 : Int) - (t1 : Int)) < k.msecs_to_jiffies ROTARY_DEBOUNCE_MS →
      ∀ s2 : State, s2.last_rot_jiffies = (rotary_int_handler k t1 g1 s).last_rot_jiffies →
        rotary_int_handler k t2 g2 s2 = s2) ∧
    (k.msecs_to_jiffies DEBOUNCE_MS ≤ k.ulong_range / 2 →
      sw_accepts k t1 s = true →
      k.ulong ((t2 : Int) - (t1 : Int)) < k.msecs_to_jiffies DEBOUNCE_MS →
      ∀ s2 : State, s2.last_sw_jiffies = (rotary_sw_handler k t1 g1 s).last_sw_jiffies →
        rotary_sw_handler k t2 g2 s2 = s2) := by
  constructor
  · intro hw hacc hd s2 hs2
    have hlast : s2.last_rot_jiffies = t1 := by
      rw [hs2]; simp [rotary_int_handler, hacc]
    have key := (time_before_window k hb t2 t1 _ (by omega) hw).mpr hd
    have hrej : rot_accepts k t2 s2 = false := by
      unfold rot_accepts
      rw [hlast, key]
      rfl
    simp [rotary_int_handler, hrej]
  · intro hw hacc hd s2 hs2
    have hlast : s2.last_sw_jiffies = t1 := by
      rw [hs2]; simp [rotary_sw_handler, hacc]
    have key := (time_before_window k hb t2 t1 _ (by omega) hw).mpr hd
    have hrej : sw_accepts k t2 s2 = false := by
      unfold sw_accepts
      rw [hlast, key]
      rfl
    simp [rotary_sw_handler, hrej]

/-- Witness of C14 (amended): on the 32-bit `HZ = 100` kernel a button trigger at
jiffies 500 is accepted from the initial state and one at jiffies 510, inside
the window of 15 jiffies, changes nothing. -/
theorem second_trigger_inside_window_rejected_witness :
    rotary_sw_handler arm32_hz100 510 (fun _ => true)
        (rotary_sw_handler arm32_hz100 500 (fun _ => false) State.init) =
      rotary_sw_handler arm32_hz100 500 (fun _ => false) State.init :=
  (second_trigger_inside_window_rejected arm32_hz100 500 510 (fun _ => false) (fun _ => true)
    State.init (by decide)).2 (by decide) (by decide) (by decide) _ rfl

/-- C14 as stated fails: on the 32-bit `HZ = 100` kernel, with the last accepted
button trigger at jiffies 1000, a trigger at 1010 is rejected and a second one
at 1020, only 10 jiffies later and so inside the window of 15, is accepted and
changes `button_status` from 1 to 0. -/
theorem second_trigger_after_rejected_one_accepted :
    rotary_sw_handler arm32_hz100 1010 (fun _ => false) idle_since_1000 = idle_since_1000 ∧
      1020 - 1010 < arm32_hz100.msecs_to_jiffies DEBOUNCE_MS ∧
      idle_since_1000.button_status = 1 ∧
      (rotary_sw_handler arm32_hz100 1020 (fun _ => false)
        (rotary_sw_handler arm32_hz100 1010 (fun _ => false) idle_since_1000)).button_status =
        0 := by
  decide

end Rotary

/-! # Properties of the event loop -/

namespace App

open Rotary

theorem hold_branch_frame (a : Vars) :
    (hold_branch a).rotary_delta = a.rotary_delta ∧
      (hold_branch a).last_rotary_val = a.last_rotary_val ∧
      (hold_branch a).synced = a.synced := by
  unfold hold_branch
  split
  · split
    · split <;> exact ⟨rfl, rfl, rfl⟩
    · exact ⟨rfl, rfl, rfl⟩
  · split <;> exact ⟨rfl, rfl, rfl⟩

theorem click_branch_frame (rand : Nat) (a : Vars) :
    (click_branch rand a).rotary_delta = a.rotary_delta ∧
      (click_branch rand a).last_rotary_val = a.last_rotary_val ∧
      (click_branch rand a).synced = a.synced := by
  unfold click_branch reset_game
  split
  · exact ⟨rfl, rfl, rfl⟩
  · split
    · split <;> exact ⟨rfl, rfl, rfl⟩
    · split
      · exact ⟨rfl, rfl, rfl⟩
      · split
        · split <;> exact ⟨rfl, rfl, rfl⟩
        · exact ⟨rfl, rfl, rfl⟩

theorem on_button_frame (now : timespec) (rand : Nat) (btn : Int) (a : Vars) :
    (on_button now rand btn a).rotary_delta = a.rotary_delta ∧
      (on_button now rand btn a).last_rotary_val = a.last_rotary_val ∧
      (on_button now rand btn a).synced = a.synced := by
  unfold on_button
  split
  · split <;> exact ⟨rfl, rfl, rfl⟩
  · split
    · split
      · exact hold_branch_frame a
      · exact click_branch_frame rand a
    · exact ⟨rfl, rfl, rfl⟩

theorem on_snapshot_text (k : Kernel) (now : timespec) (rand : Nat) (d : State) (a : Vars) :
    (on_snapshot k now rand (snapshot_text d) a).rotary_delta =
        k.wrap_long
          (d.rotary_value - (if a.synced = 0 then d.rotary_value else a.last_rotary_val)) ∧
      (on_snapshot k now rand (snapshot_text d) a).last_rotary_val = d.rotary_value ∧
      (on_snapshot k now rand (snapshot_text d) a).synced = (if a.synced = 0 then 1 else a.synced) := by
  unfold on_snapshot SNAPSHOT_FORMAT
  rw [sscanf_snapshot_text]
  simp only
  rw [(on_button_frame _ _ _ _).1, (on_button_frame _ _ _ _).2.1, (on_button_frame _ _ _ _).2.2]
  by_cases h : a.synced = 0
  · simp [h]
  · simp [h]

theorem snapshot_text_length_pos (d : State) : 0 < (snapshot_text d).length := by
  unfold snapshot_text
  simp

/-- The input step when an event is pending: the snapshot line of the driver
reaches `on_snapshot` and the flag is cleared. -/
theorem input_step_pending (k : Kernel) (w : State → State) (now : timespec) (rand : Nat) (d : State)
    (a : Vars) (hd : d.data_ready ≠ 0) (hv : fits_long d.rotary_value)
    (hb : fits_int d.button_status) :
    input_step k w now rand d a =
      ({ d with data_ready := 0 }, on_snapshot k now rand (snapshot_text d) a) := by
  have hlen := snapshot_text_length_le d hv hb
  have hpos := snapshot_text_length_pos d
  have hpoll : rotary_poll d = (POLLIN ||| POLLRDNORM, d) := by
    unfold rotary_poll; rw [if_pos hd]
  have hmask : (POLLIN ||| POLLRDNORM) &&& POLLIN_SET ≠ 0 := by decide
  unfold input_step
  rw [hpoll]
  simp only [hmask, ne_eq, not_false_eq_true, if_true]
  rw [rotary_read_ready w 0 0 d hd]
  simp only [ne_eq, not_true_eq_false, if_false]
  rw [List.take_of_length_le hlen, List.take_of_length_le (le_refl _)]
  have : ((snapshot_text d).length : Int) > 0 := by exact_mod_cast hpos
  rw [if_pos this]

theorem run_rotary_data_ready (k : Kernel) (ts : List (Nat × Gpio)) :
    ∀ s : State, ts ≠ [] ∨ s.data_ready ≠ 0 → all_accepted k ts s = true →
      (run_rotary k ts s).data_ready ≠ 0 := by
  induction ts with
  | nil =>
    intro s h _
    rcases h with h | h
    · exact absurd rfl h
    · exact h
  | cons t ts ih =>
    intro s _ h
    simp only [all_accepted, Bool.and_eq_true] at h
    obtain ⟨h1, h2⟩ := h
    refine ih _ (Or.inr ?_) h2
    simp [rotary_int_handler, h1]

theorem tdiv_million_le (x : Int) (hx : x < 1000000000) : x.tdiv 1000000 ≤ 999 := by
  rcases le_or_lt 0 x with h | h
  · rw [Int.tdiv_eq_ediv h (by decide)]
    omega
  · have h1 : (-x).tdiv 1000000 = -(x.tdiv 1000000) := Int.neg_tdiv _ _
    have h2 : (-x).tdiv 1000000 = (-x) / 1000000 := Int.tdiv_eq_ediv (by omega) (by decide)
    have h3 : 0 ≤ (-x) / 1000000 := Int.ediv_nonneg (by omega) (by decide)
    omega

/-- C7: once the loop has synced at counter `c0`, any number of accepted rotations
with no read in between (at least one, or none with an event already pending)
is delivered by the next input step as one delta, the current counter minus
`c0` (the net sum of the coalesced rotations when the driver stood at `c0` and
the counter did not overflow on the way); `last_rotary_val` becomes the
current counter and `data_ready` is 0 right after. `c0`, the counter and
their difference lie in the range of a `long` of the machine, and the level in
that of an `int`. -/
theorem coalesced_rotations_single_delta (k : Kernel) (w : State → State) (now : timespec)
    (rand : Nat) (ts : List (Nat × Gpio)) (d : State) (a : Vars) (c0 : Int)
    (hsync : a.synced ≠ 0) (hlast : a.last_rotary_val = c0)
    (hpend : ts ≠ [] ∨ d.data_ready ≠ 0) (hacc : all_accepted k ts d = true)
    (hv : fits_long (run_rotary k ts d).rotary_value)
    (hb : fits_int (run_rotary k ts d).button_status)
    (hrange : k.in_long c0 ∧ k.in_long (run_rotary k ts d).rotary_value ∧
      k.in_long ((run_rotary k ts d).rotary_value - c0)) :
    (input_step k w now rand (run_rotary k ts d) a).2.rotary_delta =
        (run_rotary k ts d).rotary_value - c0 ∧
      (input_step k w now rand (run_rotary k ts d) a).2.last_rotary_val =
        (run_rotary k ts d).rotary_value ∧
      (input_step k w now rand (run_rotary k ts d) a).1.data_ready = 0 ∧
      (d.rotary_value = c0 → sums_in_long k d.rotary_value (sampled_levels ts) = true →
        (input_step k w now rand (run_rotary k ts d) a).2.rotary_delta =
          ((sampled_levels ts).map (fun l => spec_contribution l.1 l.2)).sum) := by
  have hready : (run_rotary k ts d).data_ready ≠ 0 := run_rotary_data_ready k ts d hpend hacc
  rw [input_step_pending k w now rand _ a hready hv hb]
  obtain ⟨h1, h2, -⟩ := on_snapshot_text k now rand (run_rotary k ts d) a
  rw [if_neg hsync, hlast, k.wrap_long_of_in_long _ hrange.2.2] at h1
  refine ⟨h1, h2, rfl, ?_⟩
  intro hc hfit
  show (on_snapshot k now rand (snapshot_text (run_rotary k ts d)) a).rotary_delta = _
  rw [h1, run_rotary_value k ts d hacc hfit, hc]
  ring

/-- Witness of C7: the counter goes 0, 1, 2 by two accepted rotations and one
read follows; the delta is +2 and `data_ready` is 0 afterwards. -/
theorem coalesced_rotations_single_delta_witness :
    (input_step arm32_hz100 id ⟨5, 0⟩ 0 (run_rotary arm32_hz100 two_detents State.init)
        synced_at_zero).2.rotary_delta = 2 ∧
      (input_step arm32_hz100 id ⟨5, 0⟩ 0 (run_rotary arm32_hz100 two_detents State.init)
        synced_at_zero).2.last_rotary_val = 2 ∧
      (input_step arm32_hz100 id ⟨5, 0⟩ 0 (run_rotary arm32_hz100 two_detents State.init)
        synced_at_zero).1.data_ready = 0 :=
  have h := coalesced_rotations_single_delta arm32_hz100 id ⟨5, 0⟩ 0 two_detents State.init
    synced_at_zero 0 (by decide) (by decide) (Or.inl (List.cons_ne_nil _ _)) (by decide) (by decide)
    (by decide) (by decide)
  ⟨h.1.trans (by decide), h.2.1.trans (by decide), h.2.2.1⟩

/-- C8: whatever counter the driver has accumulated, the first snapshot the loop
reads (`synced` still 0, an event pending) seeds `last_rotary_val` with that
counter, leaves `rotary_delta` at 0 and sets `synced`. The counter and the
level range over the C types `long` and `int`. -/
theorem first_read_seeds_without_delta (k : Kernel) (w : State → State) (now : timespec)
    (rand : Nat) (d : State) (a : Vars) (hns : a.synced = 0) (hd : d.data_ready ≠ 0)
    (hv : fits_long d.rotary_value) (hb : fits_int d.button_status) :
    (input_step k w now rand d a).2.last_rotary_val = d.rotary_value ∧
      (input_step k w now rand d a).2.rotary_delta = 0 ∧
      (input_step k w now rand d a).2.synced = 1 := by
  rw [input_step_pending k w now rand d a hd hv hb]
  obtain ⟨h1, h2, h3⟩ := on_snapshot_text k now rand d a
  rw [if_pos hns] at h1 h3
  exact ⟨h2, by rw [h1, sub_self, k.wrap_long_zero], h3⟩

/-- Witness of C8: the first read meets a driver whose counter already stands at
-12. -/
theorem first_read_seeds_without_delta_witness :
    (input_step arm32_hz100 id ⟨5, 0⟩ 0 pending_press (Vars.init 0)).2.last_rotary_val = -12 ∧
      (input_step arm32_hz100 id ⟨5, 0⟩ 0 pending_press (Vars.init 0)).2.rotary_delta = 0 ∧
      (input_step arm32_hz100 id ⟨5, 0⟩ 0 pending_press (Vars.init 0)).2.synced = 1 :=
  first_read_seeds_without_delta arm32_hz100 id ⟨5, 0⟩ 0 pending_press (Vars.init 0)
    (by decide) (by decide) (by decide) (by decide)

/-- C9 fails on the code: a release 1999 ms after the press (press at 0 s + 1 ms,
release at 2 s) is classified as Hold, because only the whole seconds are
compared; from Clock/View the loop enters Edit mode, where the short-click
branch would have returned to the menu. -/
theorem release_after_1999_ms_runs_hold_branch :
    diff_ms ⟨2, 0⟩ ⟨0, 1000000⟩ = 1999 ∧
      elapsed_ns ⟨2, 0⟩ ⟨0, 1000000⟩ = 1999 * 1000000 ∧
      classify_release ⟨2, 0⟩ ⟨0, 1000000⟩ = Gesture.Hold ∧
      (on_button ⟨2, 0⟩ 0 1 (clock_view_pressed ⟨0, 1000000⟩)).current_state = STATE_CLOCK ∧
      (on_button ⟨2, 0⟩ 0 1 (clock_view_pressed ⟨0, 1000000⟩)).clock_mode = CLOCK_EDIT ∧
      (click_branch 0 (clock_view_pressed ⟨0, 1000000⟩)).current_state = STATE_MENU ∧
      (click_branch 0 (clock_view_pressed ⟨0, 1000000⟩)).clock_mode = CLOCK_VIEW := by
  decide

/-- C10: a release (any non-zero level) seen while `is_holding` is set, at least
2000 ms after the press on normalised monotonic timestamps, is classified as
Hold: the hold branch runs and `is_holding` is cleared afterwards. -/
theorem release_after_2000_ms_runs_hold_branch (now : timespec) (rand : Nat) (btn : Int)
    (a : Vars) (hbtn : btn ≠ 0) (hheld : a.is_holding ≠ 0)
    (hnow : 0 ≤ now.tv_nsec ∧ now.tv_nsec < 1000000000)
    (hstart : 0 ≤ a.press_start.tv_nsec ∧ a.press_start.tv_nsec < 1000000000)
    (helapsed : 2000 ≤ diff_ms now a.press_start ∨
      2000 * 1000000 ≤ elapsed_ns now a.press_start) :
    classify_release now a.press_start = Gesture.Hold ∧
      on_button now rand btn a = { hold_branch a with is_holding := 0 } ∧
      (on_button now rand btn a).is_holding = 0 := by
  have hsec : now.tv_sec - a.press_start.tv_sec ≥ 2 := by
    rcases helapsed with h | h
    · unfold diff_ms at h
      have := tdiv_million_le (now.tv_nsec - a.press_start.tv_nsec) (by omega)
      omega
    · unfold elapsed_ns at h
      omega
  have hcls : classify_release now a.press_start = Gesture.Hold := by
    unfold classify_release
    rw [if_pos hsec]
  have hstep : on_button now rand btn a = { hold_branch a with is_holding := 0 } := by
    unfold on_button
    rw [if_neg hbtn, if_pos hheld, hcls]
  exact ⟨hcls, hstep, by rw [hstep]⟩

/-- Witness of C10: pressed in Clock/View at 10.5 s and released at 12.5 s,
exactly 2000 ms later. -/
theorem release_after_2000_ms_runs_hold_branch_witness :
    classify_release ⟨12, 500000000⟩ (clock_view_pressed ⟨10, 500000000⟩).press_start =
        Gesture.Hold ∧
      on_button ⟨12, 500000000⟩ 0 1 (clock_view_pressed ⟨10, 500000000⟩) =
        { hold_branch (clock_view_pressed ⟨10, 500000000⟩) with is_holding := 0 } ∧
      (on_button ⟨12, 500000000⟩ 0 1 (clock_view_pressed ⟨10, 500000000⟩)).is_holding = 0 :=
  release_after_2000_ms_runs_hold_branch ⟨12, 500000000⟩ 0 1 (clock_view_pressed ⟨10, 500000000⟩)
    (by decide) (by decide) (by decide) (by decide) (by decide)

/-! ## The edit block -/

theorem to_int_of_fits (x : Int) (h : fits_int x) : to_int x = x := by
  unfold fits_int at h
  unfold to_int
  norm_num at h
  omega

theorem clamp_range_eq (lo hi x : Int) (h : lo ≤ hi) : clamp_range lo hi x = max lo (min x hi) := by
  unfold clamp_range
  simp only []
  split <;> split <;> omega

theorem clamp_range_id (lo hi x : Int) (h1 : lo ≤ x) (h2 : x ≤ hi) : clamp_range lo hi x = x := by
  unfold clamp_range
  simp only []
  split <;> split <;> omega

/-- C11: in Clock/Edit mode with the six fields inside their ranges, `edit_field`
in 0..5 and a non-zero delta that does not overflow `int` (the delta and its
sum with the selected field fit an `int`), the edit block replaces the
selected field by its old value plus the delta clamped to the range of that
field, leaves the other five fields as they were and sets `rotary_delta` to
0. -/
theorem edit_block_clamps_selected_field (a : Vars) (hs : a.current_state = STATE_CLOCK)
    (hm : a.clock_mode = CLOCK_EDIT) (hd : a.rotary_delta ≠ 0) (hfit : fits_int a.rotary_delta)
    (hsum : fits_int (selected_field a + a.rotary_delta))
    (hf : 0 ≤ a.edit_field ∧ a.edit_field ≤ 5) (hr : fields_in_range a) :
    (edit_block a).edit_year =
        (if a.edit_field = 0 then max 2000 (min (a.edit_year + a.rotary_delta) 2099)
          else a.edit_year) ∧
      (edit_block a).edit_mon =
        (if a.edit_field = 1 then max 1 (min (a.edit_mon + a.rotary_delta) 12)
          else a.edit_mon) ∧
      (edit_block a).edit_day =
        (if a.edit_field = 2 then max 1 (min (a.edit_day + a.rotary_delta) 31)
          else a.edit_day) ∧
      (edit_block a).edit_hour =
        (if a.edit_field = 3 then max 0 (min (a.edit_hour + a.rotary_delta) 23)
          else a.edit_hour) ∧
      (edit_block a).edit_min =
        (if a.edit_field = 4 then max 0 (min (a.edit_min + a.rotary_delta) 59)
          else a.edit_min) ∧
      (edit_block a).edit_sec =
        (if a.edit_field = 5 then max 0 (min (a.edit_sec + a.rotary_delta) 59)
          else a.edit_sec) ∧
      (edit_block a).rotary_delta = 0 := by
  obtain ⟨⟨y1, y2⟩, ⟨m1, m2⟩, ⟨d1, d2⟩, ⟨h1, h2⟩, ⟨n1, n2⟩, ⟨s1, s2⟩⟩ := hr
  have hcast := to_int_of_fits a.rotary_delta hfit
  unfold edit_block
  rw [if_pos ⟨hs, hm, hd⟩]
  obtain ⟨f0, f5⟩ := hf
  have hcases : a.edit_field = 0 ∨ a.edit_field = 1 ∨ a.edit_field = 2 ∨ a.edit_field = 3 ∨
      a.edit_field = 4 ∨ a.edit_field = 5 := by omega
  unfold selected_field at hsum
  rcases hcases with h | h | h | h | h | h <;>
    (simp only [h] at hsum
     norm_num at hsum
     have hadd := to_int_of_fits _ hsum
     simp [h, hcast, hadd, clamp_range_eq, clamp_range_id, y1, y2, m1, m2, d1, d2, h1, h2, n1, n2,
       s1, s2])

/-- Witness of C11: month 12 with delta +1 stays 12, and year 2099 with delta +1
stays 2099. -/
theorem edit_block_clamps_selected_field_witness :
    (edit_block (editing 1 1)).edit_mon = 12 ∧ (edit_block (editing 0 1)).edit_year = 2099 ∧
      (edit_block (editing 1 1)).rotary_delta = 0 :=
  have h1 := edit_block_clamps_selected_field (editing 1 1) (by decide) (by decide) (by decide)
    (by decide) (by decide) (by decide) (by decide)
  have h0 := edit_block_clamps_selected_field (editing 0 1) (by decide) (by decide) (by decide)
    (by decide) (by decide) (by decide) (by decide)
  ⟨h1.2.1.trans (by decide), h0.1.trans (by decide), h1.2.2.2.2.2.2⟩

/-! ## The loops of the view handlers run to completion -/

theorem world_next_acc (fuel : Nat) :
    ∀ a : Vars, a.world_acc ≤ (fuel : Int) →
      (world_next fuel a).world_acc = (if a.world_acc ≥ 1 then 0 else a.world_acc) := by
  induction fuel with
  | zero =>
    intro a h
    have : ¬ a.world_acc ≥ 1 := by omega
    simp [world_next, this]
  | succ n ih =>
    intro a h
    unfold world_next
    by_cases hg : a.world_acc ≥ 1
    · rw [if_pos hg, if_pos hg, ih _ (by simp only []; push_cast at h; omega)]
      simp only []
      split <;> omega
    · rw [if_neg hg, if_neg hg]

theorem world_prev_acc (fuel : Nat) :
    ∀ a : Vars, -a.world_acc ≤ (fuel : Int) →
      (world_prev fuel a).world_acc = (if a.world_acc ≤ -1 then 0 else a.world_acc) := by
  induction fuel with
  | zero =>
    intro a h
    have : ¬ a.world_acc ≤ -1 := by omega
    simp [world_prev, this]
  | succ n ih =>
    intro a h
    unfold world_prev
    by_cases hg : a.world_acc ≤ -1
    · rw [if_pos hg, if_pos hg, ih _ (by simp only []; push_cast at h; omega)]
      simp only []
      split <;> omega
    · rw [if_neg hg, if_neg hg]

/-- The fuel given to the two loops of `handle_world` is enough: they stop with
their guards false, the accumulator at 0. -/
theorem handle_world_acc (a : Vars) : (handle_world a).world_acc = 0 := by
  have key : ∀ b : Vars,
      (world_prev (-(world_next b.world_acc.toNat b).world_acc).toNat
        (world_next b.world_acc.toNat b)).world_acc = 0 := by
    intro b
    rw [world_prev_acc _ _ (by omega), world_next_acc _ _ (by omega)]
    split_ifs <;> omega
  exact key _

theorem menu_down_acc (fuel : Nat) :
    ∀ a : Vars, a.menu_acc ≤ (fuel : Int) →
      (menu_down fuel a).menu_acc = (if a.menu_acc ≥ 1 then 0 else a.menu_acc) := by
  induction fuel with
  | zero =>
    intro a h
    have : ¬ a.menu_acc ≥ 1 := by omega
    simp [menu_down, this]
  | succ n ih =>
    intro a h
    unfold menu_down
    by_cases hg : a.menu_acc ≥ 1
    · rw [if_pos hg, if_pos hg, ih _ (by simp only []; push_cast at h; omega)]
      simp only []
      split <;> omega
    · rw [if_neg hg, if_neg hg]

theorem menu_up_acc (fuel : Nat) :
    ∀ a : Vars, -a.menu_acc ≤ (fuel : Int) →
      (menu_up fuel a).menu_acc = (if a.menu_acc ≤ -1 then 0 else a.menu_acc) := by
  induction fuel with
  | zero =>
    intro a h
    have : ¬ a.menu_acc ≤ -1 := by omega
    simp [menu_up, this]
  | succ n ih =>
    intro a h
    unfold menu_up
    by_cases hg : a.menu_acc ≤ -1
    · rw [if_pos hg, if_pos hg, ih _ (by simp only []; push_cast at h; omega)]
      simp only []
      split <;> omega
    · rw [if_neg hg, if_neg hg]

/-- The fuel given to the two loops of `handle_menu` is enough: they stop with
their guards false, the accumulator at 0. -/
theorem handle_menu_acc (a : Vars) : (handle_menu a).menu_acc = 0 := by
  have key : ∀ b : Vars,
      (menu_up (-(menu_down b.menu_acc.toNat b).menu_acc).toNat
        (menu_down b.menu_acc.toNat b)).menu_acc = 0 := by
    intro b
    rw [menu_up_acc _ _ (by omega), menu_down_acc _ _ (by omega)]
    split_ifs <;> omega
  exact key _

/-! ## The world clock -/

theorem world_next_frame (fuel : Nat) :
    ∀ a : Vars, 0 ≤ a.world_city ∧ a.world_city ≤ 5 →
      (0 ≤ (world_next fuel a).world_city ∧ (world_next fuel a).world_city ≤ 5) ∧
        (world_next fuel a).rtc_cache = a.rtc_cache := by
  induction fuel with
  | zero => intro a h; exact ⟨h, rfl⟩
  | succ n ih =>
    intro a h
    unfold world_next
    split
    · have hc : CITY_COUNT = 6 := by decide
      have hmod : (a.world_city + 1).tmod CITY_COUNT = (a.world_city + 1) % 6 := by
        rw [hc, Int.tmod_eq_emod (by omega) (by decide)]
      have := ih { a with world_city := (a.world_city + 1).tmod CITY_COUNT,
                          world_acc := a.world_acc - 1 } (by simp only [hmod]; omega)
      exact this
    · exact ⟨h, rfl⟩

theorem world_prev_frame (fuel : Nat) :
    ∀ a : Vars, 0 ≤ a.world_city ∧ a.world_city ≤ 5 →
      (0 ≤ (world_prev fuel a).world_city ∧ (world_prev fuel a).world_city ≤ 5) ∧
        (world_prev fuel a).rtc_cache = a.rtc_cache := by
  induction fuel with
  | zero => intro a h; exact ⟨h, rfl⟩
  | succ n ih =>
    intro a h
    unfold world_prev
    split
    · have hc : CITY_COUNT = 6 := by decide
      have hmod : (a.world_city - 1 + CITY_COUNT).tmod CITY_COUNT = (a.world_city - 1 + 6) % 6 := by
        rw [hc, Int.tmod_eq_emod (by omega) (by decide)]
      have := ih { a with world_city := (a.world_city - 1 + CITY_COUNT).tmod CITY_COUNT,
                          world_acc := a.world_acc + 1 } (by simp only [hmod]; omega)
      exact this
    · exact ⟨h, rfl⟩

theorem handle_world_frame (a : Vars) (h : 0 ≤ a.world_city ∧ a.world_city ≤ 5) :
    (0 ≤ (handle_world a).world_city ∧ (handle_world a).world_city ≤ 5) ∧
      (handle_world a).rtc_cache = a.rtc_cache := by
  unfold handle_world
  simp only []
  obtain ⟨h1, h2⟩ := world_next_frame
    ({ a with world_acc := to_int (a.world_acc + to_int a.rotary_delta), rotary_delta := 0 } : Vars).world_acc.toNat
    { a with world_acc := to_int (a.world_acc + to_int a.rotary_delta), rotary_delta := 0 } h
  obtain ⟨h3, h4⟩ := world_prev_frame _ _ h1
  exact ⟨h3, h4.trans h2⟩

theorem city_offset_bounds (c : Int) (h : 0 ≤ c ∧ c ≤ 5) :
    -14 ≤ city_offset c ∧ city_offset c ≤ 0 := by
  obtain ⟨h0, h5⟩ := h
  have hcases : c = 0 ∨ c = 1 ∨ c = 2 ∨ c = 3 ∨ c = 4 ∨ c = 5 := by omega
  rcases hcases with h | h | h | h | h | h <;> subst h <;> decide

theorem print_02d_length_le (v : Int) (m : Nat) (hm : 0 < m) (hv : v.natAbs < 10 ^ m) :
    (print_02d v).length ≤ m + 1 := by
  have := print_d_length_le v m hm hv
  unfold print_02d
  split
  · simp only [List.length_cons]; omega
  · exact this

/-- C12: for every city of the table and every cached time of day `h:m:s` with
`h` in 0..23, the text `handle_world` displays is the hour
`(h + offset_hours) mod 24`, which lies in 0..23, followed by the minutes and
the seconds as cached. -/
theorem world_clock_hour_mod_24 (a : Vars) (h m s : Int)
    (hc : 0 ≤ a.world_city ∧ a.world_city ≤ 5)
    (ht : sscanf TIME_FORMAT (a.rtc_cache.drop 11) = [h, m, s])
    (hh : 0 ≤ h ∧ h ≤ 23) (hm : fits_int m) (hs : fits_int s) :
    (0 ≤ (handle_world a).world_city ∧ (handle_world a).world_city < CITY_COUNT) ∧
      world_tbuf (handle_world a) =
        print_02d ((h + city_offset (handle_world a).world_city) % 24) ++ [':'] ++
          print_02d m ++ [':'] ++ print_02d s ∧
      0 ≤ (h + city_offset (handle_world a).world_city) % 24 ∧
      (h + city_offset (handle_world a).world_city) % 24 ≤ 23 := by
  obtain ⟨hcity, hcache⟩ := handle_world_frame a hc
  obtain ⟨ho1, ho2⟩ := city_offset_bounds _ hcity
  have hcount : CITY_COUNT = 6 := by decide
  have hmod : (h + city_offset (handle_world a).world_city + 24).tmod 24 =
      (h + city_offset (handle_world a).world_city) % 24 := by
    rw [Int.tmod_eq_emod (by omega) (by decide)]
    omega
  have hrange : 0 ≤ (h + city_offset (handle_world a).world_city) % 24 ∧
      (h + city_offset (handle_world a).world_city) % 24 ≤ 23 := by omega
  have l1 := print_02d_length_le ((h + city_offset (handle_world a).world_city) % 24) 2
    (by decide) (by omega)
  have l2 := print_02d_length_le m 10 (by decide)
    (by unfold fits_int at hm; norm_num at hm ⊢; omega)
  have l3 := print_02d_length_le s 10 (by decide)
    (by unfold fits_int at hs; norm_num at hs ⊢; omega)
  refine ⟨⟨hcity.1, by rw [hcount]; omega⟩, ?_, hrange⟩
  unfold world_tbuf
  rw [hcache, ht]
  simp only [hmod]
  apply List.take_of_length_le
  simp only [List.length_append, List.length_singleton]
  omega

/-- Witness of C12: 23:00:00 cached and the city with offset -2 selected displays
21:00:00. -/
theorem world_clock_hour_mod_24_witness :
    world_tbuf (handle_world hanoi_at_23) = ['2', '1', ':', '0', '0', ':', '0', '0'] ∧
      (0 : Int) ≤ (23 + city_offset (handle_world hanoi_at_23).world_city) % 24 :=
  have h := world_clock_hour_mod_24 hanoi_at_23 23 0 0 (by decide) (by decide) (by decide)
    (by decide) (by decide)
  ⟨h.2.1.trans (by decide), h.2.2.1⟩

/-! ## The game -/

theorem game_speed_eq (score : Int) (h : 0 ≤ score) : game_speed score = min (2 + score / 5) 10 := by
  unfold game_speed
  rw [Int.tdiv_eq_ediv h (by decide)]
  simp only []
  split <;> omega

/-- C13: in a `handle_game` step with `game_over` clear, a score of at least 0 and
no `int` overflow (the score is below `INT_MAX`, `obs_y` and `obs_y + speed`
fit an `int`), the obstacle speed is `min (2 + score / 5) 10`; when the
obstacle passes the bottom edge (`obs_y + speed > 64`) the score grows by
exactly 1, `obs_y` becomes -10 and `obs_x` lies in 0..109; otherwise the score
is unchanged. -/
theorem game_speed_law_and_score (rand : Nat) (a : Vars) (hg : a.game_over = 0)
    (hs : 0 ≤ a.score ∧ a.score < 2147483647)
    (hy : fits_int a.obs_y ∧ fits_int (a.obs_y + game_speed a.score)) :
    game_speed a.score = min (2 + a.score / 5) 10 ∧
      (2 ≤ game_speed a.score ∧ game_speed a.score ≤ 10) ∧
      (a.obs_y + game_speed a.score > 64 →
        (handle_game rand a).score = a.score + 1 ∧ (handle_game rand a).obs_y = -10 ∧
          0 ≤ (handle_game rand a).obs_x ∧ (handle_game rand a).obs_x ≤ 109) ∧
      (¬ a.obs_y + game_speed a.score > 64 → (handle_game rand a).score = a.score) := by
  have hsp := game_speed_eq a.score hs.1
  have hrand : 0 ≤ ((rand : Int)).tmod 110 ∧ ((rand : Int)).tmod 110 ≤ 109 := by
    rw [Int.tmod_eq_emod (by omega) (by decide)]
    omega
  have hobs := to_int_of_fits _ hy.2
  have hscore : to_int (a.score + 1) = a.score + 1 :=
    to_int_of_fits _ (by unfold fits_int; norm_num; omega)
  refine ⟨hsp, by omega, ?_, ?_⟩
  · intro hp
    unfold handle_game
    rw [if_neg (by rw [hg]; decide)]
    simp only [hobs, hp, if_true, hscore]
    split_ifs <;> exact ⟨rfl, rfl, hrand.1, hrand.2⟩
  · intro hp
    unfold handle_game
    rw [if_neg (by rw [hg]; decide)]
    simp only [hobs, hp, if_false]
    split_ifs <;> rfl

/-- Witness of C13: at score 7 the speed is 3, and an obstacle at row 63 passes the
bottom edge. -/
theorem game_speed_law_and_score_witness :
    game_speed (obstacle_at_bottom).score = 3 ∧
      (handle_game 1234 obstacle_at_bottom).score = 8 ∧
      (handle_game 1234 obstacle_at_bottom).obs_y = -10 :=
  have h := game_speed_law_and_score 1234 obstacle_at_bottom (by decide) (by decide) (by decide)
  ⟨h.1.trans (by decide), (h.2.2.1 (by decide)).1.trans (by decide), (h.2.2.1 (by decide)).2.1⟩

/-! ## Edit mode and the Clock state -/

theorem poll_rtc_if_due_frame (p : Int) (now : timespec) (bytes : List Char) (a : Vars) :
    (poll_rtc_if_due p now bytes a).current_state = a.current_state ∧
      (poll_rtc_if_due p now bytes a).clock_mode = a.clock_mode := by
  unfold poll_rtc_if_due
  dsimp only
  split_ifs <;> exact ⟨rfl, rfl⟩

theorem edit_block_frame (a : Vars) :
    (edit_block a).current_state = a.current_state ∧
      (edit_block a).clock_mode = a.clock_mode := by
  unfold edit_block
  dsimp only
  split_ifs <;> exact ⟨rfl, rfl⟩

theorem menu_down_frame (fuel : Nat) :
    ∀ a : Vars, (menu_down fuel a).current_state = a.current_state ∧
      (menu_down fuel a).clock_mode = a.clock_mode := by
  induction fuel with
  | zero => intro a; exact ⟨rfl, rfl⟩
  | succ n ih =>
    intro a
    unfold menu_down
    split
    · exact ih _
    · exact ⟨rfl, rfl⟩

theorem menu_up_frame (fuel : Nat) :
    ∀ a : Vars, (menu_up fuel a).current_state = a.current_state ∧
      (menu_up fuel a).clock_mode = a.clock_mode := by
  induction fuel with
  | zero => intro a; exact ⟨rfl, rfl⟩
  | succ n ih =>
    intro a
    unfold menu_up
    split
    · exact ih _
    · exact ⟨rfl, rfl⟩

theorem world_next_mode (fuel : Nat) :
    ∀ a : Vars, (world_next fuel a).current_state = a.current_state ∧
      (world_next fuel a).clock_mode = a.clock_mode := by
  induction fuel with
  | zero => intro a; exact ⟨rfl, rfl⟩
  | succ n ih =>
    intro a
    unfold world_next
    split
    · exact ih _
    · exact ⟨rfl, rfl⟩

theorem world_prev_mode (fuel : Nat) :
    ∀ a : Vars, (world_prev fuel a).current_state = a.current_state ∧
      (world_prev fuel a).clock_mode = a.clock_mode := by
  induction fuel with
  | zero => intro a; exact ⟨rfl, rfl⟩
  | succ n ih =>
    intro a
    unfold world_prev
    split
    · exact ih _
    · exact ⟨rfl, rfl⟩

theorem handle_menu_frame (a : Vars) :
    (handle_menu a).current_state = a.current_state ∧
      (handle_menu a).clock_mode = a.clock_mode := by
  unfold handle_menu
  simp only []
  obtain ⟨h1, h2⟩ := menu_up_frame
    (-(menu_down ({ a with menu_acc := to_int (a.menu_acc + to_int a.rotary_delta),
                           rotary_delta := 0 } : Vars).menu_acc.toNat
        { a with menu_acc := to_int (a.menu_acc + to_int a.rotary_delta), rotary_delta := 0 }).menu_acc).toNat
    (menu_down ({ a with menu_acc := to_int (a.menu_acc + to_int a.rotary_delta),
                         rotary_delta := 0 } : Vars).menu_acc.toNat
      { a with menu_acc := to_int (a.menu_acc + to_int a.rotary_delta), rotary_delta := 0 })
  obtain ⟨h3, h4⟩ := menu_down_frame
    ({ a with menu_acc := to_int (a.menu_acc + to_int a.rotary_delta), rotary_delta := 0 } : Vars).menu_acc.toNat
    { a with menu_acc := to_int (a.menu_acc + to_int a.rotary_delta), rotary_delta := 0 }
  exact ⟨h1.trans h3, h2.trans h4⟩

theorem handle_world_mode (a : Vars) :
    (handle_world a).current_state = a.current_state ∧
      (handle_world a).clock_mode = a.clock_mode := by
  unfold handle_world
  simp only []
  obtain ⟨h1, h2⟩ := world_prev_mode
    (-(world_next ({ a with world_acc := to_int (a.world_acc + to_int a.rotary_delta),
                            rotary_delta := 0 } : Vars).world_acc.toNat
        { a with world_acc := to_int (a.world_acc + to_int a.rotary_delta), rotary_delta := 0 }).world_acc).toNat
    (world_next ({ a with world_acc := to_int (a.world_acc + to_int a.rotary_delta),
                          rotary_delta := 0 } : Vars).world_acc.toNat
      { a with world_acc := to_int (a.world_acc + to_int a.rotary_delta), rotary_delta := 0 })
  obtain ⟨h3, h4⟩ := world_next_mode
    ({ a with world_acc := to_int (a.world_acc + to_int a.rotary_delta), rotary_delta := 0 } : Vars).world_acc.toNat
    { a with world_acc := to_int (a.world_acc + to_int a.rotary_delta), rotary_delta := 0 }
  exact ⟨h1.trans h3, h2.trans h4⟩

theorem handle_game_frame (rand : Nat) (a : Vars) :
    (handle_game rand a).current_state = a.current_state ∧
      (handle_game rand a).clock_mode = a.clock_mode := by
  unfold handle_game
  dsimp only
  split_ifs <;> exact ⟨rfl, rfl⟩

theorem dispatch_frame (rand : Nat) (a : Vars) :
    (dispatch rand a).current_state = a.current_state ∧
      (dispatch rand a).clock_mode = a.clock_mode := by
  unfold dispatch handle_clock
  split_ifs
  · exact handle_menu_frame a
  · exact ⟨rfl, rfl⟩
  · exact handle_world_mode a
  · exact handle_game_frame rand a
  · exact handle_menu_frame a

theorem hold_branch_mode (a : Vars) :
    ((a.clock_mode = CLOCK_EDIT → a.current_state = STATE_CLOCK) →
        (hold_branch a).clock_mode = CLOCK_EDIT → (hold_branch a).current_state = STATE_CLOCK) ∧
      (a.clock_mode = CLOCK_EDIT → a.current_state = STATE_CLOCK →
        (hold_branch a).current_state = STATE_CLOCK) ∧
      ((hold_branch a).clock_mode = CLOCK_EDIT → a.clock_mode ≠ CLOCK_EDIT →
        a.current_state = STATE_CLOCK ∧ a.clock_mode = CLOCK_VIEW) := by
  unfold hold_branch
  by_cases hs : a.current_state = STATE_CLOCK
  · rw [if_pos hs]
    by_cases hv : a.clock_mode = CLOCK_VIEW
    · rw [if_pos hv]
      refine ⟨fun _ _ => ?_, fun _ _ => ?_, fun _ _ => ⟨hs, hv⟩⟩
      · split <;> exact hs
      · split <;> exact hs
    · rw [if_neg hv]
      have hne : (CLOCK_VIEW : Int) ≠ CLOCK_EDIT := by decide
      exact ⟨fun _ _ => hs, fun _ _ => hs, fun h _ => absurd h hne⟩
  · rw [if_neg hs]
    by_cases hg : a.current_state = STATE_GAME
    · rw [if_pos hg]
      refine ⟨fun hinv h => ?_, fun _ h => absurd h hs, fun h hne => absurd h hne⟩
      exact absurd (hinv h) hs
    · rw [if_neg hg]
      exact ⟨fun hinv h => hinv h, fun _ h => h, fun h hne => absurd h hne⟩

theorem click_branch_mode (rand : Nat) (a : Vars) :
    ((a.clock_mode = CLOCK_EDIT → a.current_state = STATE_CLOCK) →
        (click_branch rand a).clock_mode = CLOCK_EDIT →
        (click_branch rand a).current_state = STATE_CLOCK) ∧
      (a.clock_mode = CLOCK_EDIT → a.current_state = STATE_CLOCK →
        (click_branch rand a).current_state = STATE_CLOCK) ∧
      ((click_branch rand a).clock_mode = CLOCK_EDIT → a.clock_mode ≠ CLOCK_EDIT →
        a.current_state = STATE_CLOCK ∧ a.clock_mode = CLOCK_VIEW) := by
  unfold click_branch reset_game
  by_cases hm : a.current_state = STATE_MENU
  · rw [if_pos hm]
    have hne : a.current_state ≠ STATE_CLOCK := by rw [hm]; decide
    refine ⟨fun hinv h => absurd (hinv h) hne, fun _ h => absurd h hne,
      fun h hn => absurd h hn⟩
  · rw [if_neg hm]
    by_cases hs : a.current_state = STATE_CLOCK
    · rw [if_pos hs]
      by_cases hv : a.clock_mode = CLOCK_VIEW
      · rw [if_pos hv]
        have hne : a.clock_mode ≠ CLOCK_EDIT := by rw [hv]; decide
        exact ⟨fun _ h => absurd h hne, fun h _ => absurd h hne, fun h hn => absurd h hn⟩
      · rw [if_neg hv]
        exact ⟨fun _ _ => hs, fun _ _ => hs, fun h hn => absurd h hn⟩
    · rw [if_neg hs]
      by_cases hw : a.current_state = STATE_WORLD
      · rw [if_pos hw]
        exact ⟨fun hinv h => absurd (hinv h) hs, fun _ h => absurd h hs,
          fun h hn => absurd h hn⟩
      · rw [if_neg hw]
        by_cases hg : a.current_state = STATE_GAME
        · rw [if_pos hg]
          by_cases ho : a.game_over ≠ 0
          · rw [if_pos ho]
            exact ⟨fun hinv h => hinv h, fun _ h => h, fun h hn => absurd h hn⟩
          · rw [if_neg ho]
            exact ⟨fun hinv h => hinv h, fun _ h => h, fun h hn => absurd h hn⟩
        · rw [if_neg hg]
          exact ⟨fun hinv h => hinv h, fun _ h => h, fun h hn => absurd h hn⟩

theorem on_button_mode (now : timespec) (rand : Nat) (btn : Int) (a : Vars) :
    ((a.clock_mode = CLOCK_EDIT → a.current_state = STATE_CLOCK) →
        (on_button now rand btn a).clock_mode = CLOCK_EDIT →
        (on_button now rand btn a).current_state = STATE_CLOCK) ∧
      (a.clock_mode = CLOCK_EDIT → a.current_state = STATE_CLOCK →
        (on_button now rand btn a).current_state = STATE_CLOCK) ∧
      ((on_button now rand btn a).clock_mode = CLOCK_EDIT → a.clock_mode ≠ CLOCK_EDIT →
        a.current_state = STATE_CLOCK ∧ a.clock_mode = CLOCK_VIEW) := by
  have idle : ∀ b : Vars, b.current_state = a.current_state → b.clock_mode = a.clock_mode →
      ((a.clock_mode = CLOCK_EDIT → a.current_state = STATE_CLOCK) →
        b.clock_mode = CLOCK_EDIT → b.current_state = STATE_CLOCK) ∧
      (a.clock_mode = CLOCK_EDIT → a.current_state = STATE_CLOCK →
        b.current_state = STATE_CLOCK) ∧
      (b.clock_mode = CLOCK_EDIT → a.clock_mode ≠ CLOCK_EDIT →
        a.current_state = STATE_CLOCK ∧ a.clock_mode = CLOCK_VIEW) := by
    intro b h1 h2
    rw [h1, h2]
    exact ⟨fun hinv h => hinv h, fun _ h => h, fun h hn => absurd h hn⟩
  unfold on_button
  by_cases hb : btn = 0
  · rw [if_pos hb]
    split
    · exact idle _ rfl rfl
    · exact idle _ rfl rfl
  · rw [if_neg hb]
    by_cases hh : a.is_holding ≠ 0
    · rw [if_pos hh]
      cases classify_release now a.press_start
      · exact click_branch_mode rand a
      · exact hold_branch_mode a
    · rw [if_neg hh]
      exact idle _ rfl rfl

theorem on_snapshot_mode (k : Kernel) (now : timespec) (rand : Nat) (buf : List Char) (a : Vars) :
    ((a.clock_mode = CLOCK_EDIT → a.current_state = STATE_CLOCK) →
        (on_snapshot k now rand buf a).clock_mode = CLOCK_EDIT →
        (on_snapshot k now rand buf a).current_state = STATE_CLOCK) ∧
      (a.clock_mode = CLOCK_EDIT → a.current_state = STATE_CLOCK →
        (on_snapshot k now rand buf a).current_state = STATE_CLOCK) ∧
      ((on_snapshot k now rand buf a).clock_mode = CLOCK_EDIT → a.clock_mode ≠ CLOCK_EDIT →
        a.current_state = STATE_CLOCK ∧ a.clock_mode = CLOCK_VIEW) := by
  have key : ∀ (btn : Int) (b : Vars), b.current_state = a.current_state →
      b.clock_mode = a.clock_mode →
      ((a.clock_mode = CLOCK_EDIT → a.current_state = STATE_CLOCK) →
        (on_button now rand btn b).clock_mode = CLOCK_EDIT →
        (on_button now rand btn b).current_state = STATE_CLOCK) ∧
      (a.clock_mode = CLOCK_EDIT → a.current_state = STATE_CLOCK →
        (on_button now rand btn b).current_state = STATE_CLOCK) ∧
      ((on_button now rand btn b).clock_mode = CLOCK_EDIT → a.clock_mode ≠ CLOCK_EDIT →
        a.current_state = STATE_CLOCK ∧ a.clock_mode = CLOCK_VIEW) := by
    intro btn b h1 h2
    rw [← h1, ← h2]
    exact on_button_mode now rand btn b
  unfold on_snapshot
  cases sscanf SNAPSHOT_FORMAT buf with
  | nil => exact ⟨fun hinv h => hinv h, fun _ h => h, fun h hn => absurd h hn⟩
  | cons v rest =>
    dsimp only
    by_cases hsync : a.synced = 0
    · rw [if_pos hsync]
      exact key _ _ rfl rfl
    · rw [if_neg hsync]
      exact key _ _ rfl rfl

/-- One loop iteration keeps the invariant, keeps Edit mode inside the Clock
state, and enters Edit mode from Clock/View only. -/
theorem loop_iteration_mode (k : Kernel) (i : LoopInput) (a : Vars) :
    ((a.clock_mode = CLOCK_EDIT → a.current_state = STATE_CLOCK) →
        (loop_iteration k i a).clock_mode = CLOCK_EDIT →
        (loop_iteration k i a).current_state = STATE_CLOCK) ∧
      (a.clock_mode = CLOCK_EDIT → a.current_state = STATE_CLOCK →
        (loop_iteration k i a).current_state = STATE_CLOCK) ∧
      ((loop_iteration k i a).clock_mode = CLOCK_EDIT → a.clock_mode ≠ CLOCK_EDIT →
        a.current_state = STATE_CLOCK ∧ a.clock_mode = CLOCK_VIEW) := by
  have hpoll : ∀ b : Vars, b = (if ¬ (a.current_state = STATE_CLOCK ∧ a.clock_mode = CLOCK_EDIT)
      then poll_rtc_if_due 200 i.rtc_now i.rtc_bytes a else a) →
      b.current_state = a.current_state ∧ b.clock_mode = a.clock_mode := by
    intro b hb
    rw [hb]
    split
    · exact poll_rtc_if_due_frame _ _ _ _
    · exact ⟨rfl, rfl⟩
  unfold loop_iteration
  dsimp only
  obtain ⟨p1, p2⟩ := hpoll _ rfl
  generalize (if ¬ (a.current_state = STATE_CLOCK ∧ a.clock_mode = CLOCK_EDIT)
      then poll_rtc_if_due 200 i.rtc_now i.rtc_bytes a else a) = a1 at p1 p2 ⊢
  rw [(dispatch_frame _ _).1, (dispatch_frame _ _).2, (edit_block_frame _).1,
    (edit_block_frame _).2, ← p1, ← p2]
  cases i.snapshot with
  | none => exact ⟨fun hinv h => hinv h, fun _ h => h, fun h hn => absurd h hn⟩
  | some buf => exact on_snapshot_mode k i.now i.rand_click buf a1

/-- C15: in every state the loop reaches from its initial state,
`clock_mode == CLOCK_EDIT` implies `current_state == STATE_CLOCK`; a further
iteration from Edit mode stays in the Clock state, and an iteration that ends
in Edit mode without starting in it started in Clock/View. -/
theorem edit_mode_only_in_clock_state (k : Kernel) (a : Vars) (h : Reachable k a) :
    (a.clock_mode = CLOCK_EDIT → a.current_state = STATE_CLOCK) ∧
      ∀ i : LoopInput,
        (a.clock_mode = CLOCK_EDIT → (loop_iteration k i a).current_state = STATE_CLOCK) ∧
        ((loop_iteration k i a).clock_mode = CLOCK_EDIT → a.clock_mode ≠ CLOCK_EDIT →
          a.current_state = STATE_CLOCK ∧ a.clock_mode = CLOCK_VIEW) := by
  have hinv : a.clock_mode = CLOCK_EDIT → a.current_state = STATE_CLOCK := by
    induction h with
    | init rand =>
      intro h
      have hne : (CLOCK_VIEW : Int) ≠ CLOCK_EDIT := by decide
      exact absurd h hne
    | step i b _ ih => exact (loop_iteration_mode k i b).1 ih
  refine ⟨hinv, fun i => ⟨fun he => ?_, (loop_iteration_mode k i a).2.2⟩⟩
  exact (loop_iteration_mode k i a).2.1 he (hinv he)

/-- Witness of C15: after a click on CLOCK in the menu and a hold in Clock/View the
loop is in Edit mode, inside the Clock state. -/
theorem edit_mode_only_in_clock_state_witness :
    after_click_and_hold.clock_mode = CLOCK_EDIT ∧
      after_click_and_hold.current_state = STATE_CLOCK :=
  ⟨by decide,
    (edit_mode_only_in_clock_state arm32_hz100 after_click_and_hold
      (Reachable.step _ _ (Reachable.step _ _ (Reachable.step _ _ (Reachable.step _ _
        (Reachable.init 0)))))).1 (by decide)⟩

/-! ## Saving the clock and reading it back -/

open Ds1302

theorem print_02d_head (v : Int) (hv : 0 ≤ v) :
    ∃ c cs, print_02d v = c :: cs ∧ isdigit c = true ∧ isspace c = false ∧ c ≠ '-' ∧ c ≠ '+' := by
  obtain ⟨c0, cs, hcs, h1, h3, h4, h5⟩ := print_u_head v.natAbs
  have hd : print_d v = print_u v.natAbs := by
    unfold print_d; rw [if_neg (by omega)]
  unfold print_02d
  rw [hd, hcs]
  split
  · exact ⟨'0', c0 :: cs, rfl, by decide, by decide, by decide, by decide⟩
  · exact ⟨c0, cs, rfl, h1, h3, h4, h5⟩

/-- A `%d` conversion reads back what `%02d` printed for a value that is not
negative, when a non-digit follows. -/
theorem scan_d_print_02d (v : Int) (hv : 0 ≤ v) (c : Char) (rest : List Char)
    (hc : isdigit c = false) :
    scan_d (print_02d v ++ c :: rest) = some (v, c :: rest) := by
  unfold print_02d
  split
  · have hscan := scan_digits_print_u v.natAbs c rest hc
    have hd : print_d v = print_u v.natAbs := by
      unfold print_d; rw [if_neg (by omega)]
    rw [hd, List.cons_append,
      scan_d_digit '0' _ (by decide) (by decide) (by decide) (by decide)]
    have hz : scan_digits ('0' :: (print_u v.natAbs ++ c :: rest)) 0 =
        scan_digits (print_u v.natAbs ++ c :: rest) 0 := by
      simp [scan_digits, isdigit]
    rw [hz, hscan]
    simp only [Option.some.injEq, Prod.mk.injEq, and_true]
    omega
  · exact scan_d_print_d v c rest hc

theorem skip_space_print_02d (v : Int) (hv : 0 ≤ v) (rest : List Char) :
    skip_space (print_02d v ++ rest) = print_02d v ++ rest := by
  obtain ⟨c, cs, hcs, -, h3, -, -⟩ := print_02d_head v hv
  rw [hcs, List.cons_append, skip_space_cons _ _ h3]

theorem sscanf_field_space (v : Int) (hv : 0 ≤ v) (fs : List Directive) (rest : List Char) :
    sscanf (Directive.conv_d :: Directive.space :: fs) (print_02d v ++ ' ' :: rest) =
      v :: sscanf fs (skip_space rest) := by
  have hsp : skip_space (' ' :: rest) = skip_space rest := by
    simp [skip_space, isspace]
  simp only [sscanf]
  rw [scan_d_print_02d v hv ' ' rest (by decide)]
  simp only [sscanf, hsp]

theorem sscanf_field_lit (v : Int) (hv : 0 ≤ v) (c : Char) (hc : isdigit c = false)
    (fs : List Directive) (rest : List Char) :
    sscanf (Directive.conv_d :: Directive.lit c :: fs) (print_02d v ++ c :: rest) =
      v :: sscanf fs rest := by
  simp only [sscanf]
  rw [scan_d_print_02d v hv c rest hc]
  simp only [sscanf, if_true]

theorem bcd_round_trip (v : Int) (h0 : 0 ≤ v) (h1 : v ≤ 99) :
    ((bcd2bin (bin2bcd (to_u8 v)) : Nat) : Int) = v := by
  interval_cases v <;> decide

theorem bcd_seconds_mask (v : Int) (h0 : 0 ≤ v) (h1 : v ≤ 59) :
    (bin2bcd (to_u8 v) &&& 0x7F) &&& 0x7F &&& 0x7F = bin2bcd (to_u8 v) := by
  interval_cases v <;> decide

theorem year_text (y : Int) (h0 : 2000 ≤ y) (h1 : y ≤ 2099) :
    ['2', '0'] ++ print_02d (y.tmod 100) = print_d y := by
  interval_cases y <;> decide

theorem save_command_eq (a : Vars) (hr : fields_in_range a) :
    save_command a =
      print_02d (a.edit_year.tmod 100) ++ ' ' :: (print_02d a.edit_mon ++ ' ' ::
        (print_02d a.edit_day ++ ' ' :: (print_02d a.edit_hour ++ ' ' ::
          (print_02d a.edit_min ++ ' ' :: (print_02d a.edit_sec ++ [' ', '1']))))) := by
  obtain ⟨⟨y1, y2⟩, ⟨m1, m2⟩, ⟨d1, d2⟩, ⟨h1, h2⟩, ⟨n1, n2⟩, ⟨s1, s2⟩⟩ := hr
  have hy : a.edit_year.tmod 100 = a.edit_year - 2000 := by
    rw [Int.tmod_eq_emod (by omega) (by decide)]; omega
  have l1 := print_02d_length_le (a.edit_year.tmod 100) 2 (by decide) (by omega)
  have l2 := print_02d_length_le a.edit_mon 2 (by decide) (by omega)
  have l3 := print_02d_length_le a.edit_day 2 (by decide) (by omega)
  have l4 := print_02d_length_le a.edit_hour 2 (by decide) (by omega)
  have l5 := print_02d_length_le a.edit_min 2 (by decide) (by omega)
  have l6 := print_02d_length_le a.edit_sec 2 (by decide) (by omega)
  unfold save_command
  rw [List.take_of_length_le]
  · simp only [List.append_assoc, List.singleton_append, List.cons_append, List.nil_append]
  · simp only [List.length_append, List.length_singleton, List.length_cons, List.length_nil]
    omega

theorem sscanf_save_command (a : Vars) (hr : fields_in_range a) :
    sscanf WRITE_FORMAT (save_command a) =
      [a.edit_year.tmod 100, a.edit_mon, a.edit_day, a.edit_hour, a.edit_min, a.edit_sec, 1] := by
  rw [save_command_eq a hr]
  obtain ⟨⟨y1, y2⟩, ⟨m1, m2⟩, ⟨d1, d2⟩, ⟨h1, h2⟩, ⟨n1, n2⟩, ⟨s1, s2⟩⟩ := hr
  have hy : 0 ≤ a.edit_year.tmod 100 := by
    rw [Int.tmod_eq_emod (by omega) (by decide)]; omega
  have hlast : sscanf [Directive.conv_d] (skip_space ['1']) = [1] := by decide
  unfold WRITE_FORMAT
  rw [sscanf_field_space _ hy, skip_space_print_02d _ (by omega),
    sscanf_field_space _ (by omega), skip_space_print_02d _ (by omega),
    sscanf_field_space _ (by omega), skip_space_print_02d _ (by omega),
    sscanf_field_space _ (by omega), skip_space_print_02d _ (by omega),
    sscanf_field_space _ (by omega), skip_space_print_02d _ (by omega),
    sscanf_field_space _ (by omega), hlast]

theorem save_command_length_le (a : Vars) : (save_command a).length ≤ 63 := by
  unfold save_command
  exact (List.length_take_le _ _)

theorem ds1302_write_save_command (a : Vars) (chip : List Nat) (hr : fields_in_range a) :
    ds1302_write 0 (save_command a) chip =
      (((save_command a).length : Int),
        ds1302_set_time
          [bin2bcd (to_u8 a.edit_sec) &&& 0x7F, bin2bcd (to_u8 a.edit_min),
           bin2bcd (to_u8 a.edit_hour), bin2bcd (to_u8 a.edit_day), bin2bcd (to_u8 a.edit_mon),
           bin2bcd (to_u8 1), bin2bcd (to_u8 (a.edit_year.tmod 100)), 0x00]) := by
  have hlen := save_command_length_le a
  unfold ds1302_write
  rw [if_neg (by omega), if_neg (by decide), sscanf_save_command a hr]

theorem ds1302_msg_after_save (a : Vars) (chip : List Nat) (hr : fields_in_range a) :
    ds1302_msg (ds1302_write 0 (save_command a) chip).2 =
      print_d a.edit_year ++ '-' :: (print_02d a.edit_mon ++ '-' :: (print_02d a.edit_day ++
        ' ' :: (print_02d a.edit_hour ++ ':' :: (print_02d a.edit_min ++ ':' ::
          (print_02d a.edit_sec ++ ['\n']))))) := by
  rw [ds1302_write_save_command a chip hr]
  obtain ⟨⟨y1, y2⟩, ⟨m1, m2⟩, ⟨d1, d2⟩, ⟨h1, h2⟩, ⟨n1, n2⟩, ⟨s1, s2⟩⟩ := hr
  have hy : a.edit_year.tmod 100 = a.edit_year - 2000 := by
    rw [Int.tmod_eq_emod (by omega) (by decide)]; omega
  have b1 := bcd_round_trip (a.edit_year.tmod 100) (by omega) (by omega)
  have b2 := bcd_round_trip a.edit_mon (by omega) (by omega)
  have b3 := bcd_round_trip a.edit_day (by omega) (by omega)
  have b4 := bcd_round_trip a.edit_hour (by omega) (by omega)
  have b5 := bcd_round_trip a.edit_min (by omega) (by omega)
  have b6 := bcd_round_trip a.edit_sec (by omega) (by omega)
  have hmask := bcd_seconds_mask a.edit_sec s1 s2
  have hyear := year_text a.edit_year y1 y2
  unfold ds1302_msg ds1302_read_time ds1302_set_time
  simp only [List.getD_cons_zero, List.getD_cons_succ, List.take_succ_cons, List.take_zero]
  rw [hmask, b1, b2, b3, b4, b5, b6, ← hyear]
  simp only [List.append_assoc, List.singleton_append, List.cons_append, List.nil_append]

theorem sscanf_value_lit (v : Int) (c : Char) (hc : isdigit c = false)
    (fs : List Directive) (rest : List Char) :
    sscanf (Directive.conv_d :: Directive.lit c :: fs) (print_d v ++ c :: rest) =
      v :: sscanf fs rest := by
  simp only [sscanf]
  rw [scan_d_print_d v c rest hc]
  simp only [sscanf, if_true]

theorem sscanf_date_line (y m d hh mm ss : Int) (hm : 0 ≤ m) (hd : 0 ≤ d) (hhh : 0 ≤ hh)
    (hmm : 0 ≤ mm) (hss : 0 ≤ ss) :
    sscanf DATE_FORMAT
        (print_d y ++ '-' :: (print_02d m ++ '-' :: (print_02d d ++ ' ' :: (print_02d hh ++
          ':' :: (print_02d mm ++ ':' :: (print_02d ss ++ ['\n'])))))) =
      [y, m, d, hh, mm, ss] := by
  have hlast : sscanf [Directive.conv_d] (print_02d ss ++ ['\n']) = [ss] := by
    simp only [sscanf]
    rw [scan_d_print_02d ss hss '\n' [] (by decide)]
  unfold DATE_FORMAT
  rw [sscanf_value_lit y '-' (by decide),
    sscanf_field_lit m hm '-' (by decide), sscanf_field_space d hd,
    skip_space_print_02d hh hhh, sscanf_field_lit hh hhh ':' (by decide),
    sscanf_field_lit mm hmm ':' (by decide), hlast]

/-- C16: for edited fields inside their clamp ranges, the command a Hold in
Clock/Edit writes is accepted by `ds1302_write` (it returns the byte count,
all seven fields having been converted), and `ds1302_read` on the registers
stored gives the line `"YYYY-MM-DD HH:MM:SS\n"` of the same year, month, day,
hour, minute and second, which scans back to those six values. The chip is
taken to return the calendar registers as they were stored. -/
theorem clock_save_read_round_trip (a : Vars) (chip : List Nat)
    (hs : a.current_state = STATE_CLOCK) (hm : a.clock_mode = CLOCK_EDIT)
    (hr : fields_in_range a) :
    (hold_branch a).rtc_writes = a.rtc_writes ++ [save_command a] ∧
      (ds1302_write 0 (save_command a) chip).1 = ((save_command a).length : Int) ∧
      sscanf WRITE_FORMAT (save_command a) =
        [a.edit_year.tmod 100, a.edit_mon, a.edit_day, a.edit_hour, a.edit_min, a.edit_sec, 1] ∧
      ds1302_read (ds1302_write 0 (save_command a) chip).2 63 0 =
        print_d a.edit_year ++ ['-'] ++ print_02d a.edit_mon ++ ['-'] ++ print_02d a.edit_day ++
          [' '] ++ print_02d a.edit_hour ++ [':'] ++ print_02d a.edit_min ++ [':'] ++
          print_02d a.edit_sec ++ ['\n'] ∧
      sscanf DATE_FORMAT (ds1302_read (ds1302_write 0 (save_command a) chip).2 63 0) =
        [a.edit_year, a.edit_mon, a.edit_day, a.edit_hour, a.edit_min, a.edit_sec] := by
  have hmsg := ds1302_msg_after_save a chip hr
  have hwrite := ds1302_write_save_command a chip hr
  have hscan := sscanf_save_command a hr
  obtain ⟨⟨y1, y2⟩, ⟨m1, m2⟩, ⟨d1, d2⟩, ⟨h1, h2⟩, ⟨n1, n2⟩, ⟨s1, s2⟩⟩ := hr
  have l1 := print_d_length_le a.edit_year 4 (by decide) (by omega)
  have l2 := print_02d_length_le a.edit_mon 2 (by decide) (by omega)
  have l3 := print_02d_length_le a.edit_day 2 (by decide) (by omega)
  have l4 := print_02d_length_le a.edit_hour 2 (by decide) (by omega)
  have l5 := print_02d_length_le a.edit_min 2 (by decide) (by omega)
  have l6 := print_02d_length_le a.edit_sec 2 (by decide) (by omega)
  have hread : ds1302_read (ds1302_write 0 (save_command a) chip).2 63 0 =
      print_d a.edit_year ++ '-' :: (print_02d a.edit_mon ++ '-' :: (print_02d a.edit_day ++
        ' ' :: (print_02d a.edit_hour ++ ':' :: (print_02d a.edit_min ++ ':' ::
          (print_02d a.edit_sec ++ ['\n']))))) := by
    unfold ds1302_read
    rw [hmsg, List.drop_zero]
    have hlen : (print_d a.edit_year ++ '-' :: (print_02d a.edit_mon ++ '-' ::
        (print_02d a.edit_day ++ ' ' :: (print_02d a.edit_hour ++ ':' ::
          (print_02d a.edit_min ++ ':' :: (print_02d a.edit_sec ++ ['\n'])))))).length ≤ 63 := by
      simp only [List.length_append, List.length_cons, List.length_nil]
      omega
    rw [List.take_of_length_le hlen, List.take_of_length_le (le_refl _),
      List.take_of_length_le hlen]
  have hne : a.clock_mode ≠ CLOCK_VIEW := by rw [hm]; decide
  refine ⟨?_, ?_, hscan, ?_, ?_⟩
  · unfold hold_branch
    rw [if_pos hs, if_neg hne]
  · rw [hwrite]
  · rw [hread]
    simp only [List.append_assoc, List.singleton_append, List.cons_append, List.nil_append]
  · rw [hread]
    exact sscanf_date_line _ _ _ _ _ _ (by omega) (by omega) (by omega) (by omega) (by omega)

/-- Witness of C16: 2099-12-31 23:59:59 saved from Clock/Edit and read back. -/
theorem clock_save_read_round_trip_witness :
    (ds1302_write 0 (save_command (editing 0 0)) []).1 = 19 ∧
      ds1302_read (ds1302_write 0 (save_command (editing 0 0)) []).2 63 0 =
        ['2', '0', '9', '9', '-', '1', '2', '-', '3', '1', ' ', '2', '3', ':', '5', '9', ':',
         '5', '9', '\n'] :=
  have h := clock_save_read_round_trip (editing 0 0) [] (by decide) (by decide) (by decide)
  ⟨h.2.1.trans (by decide), h.2.2.2.1.trans (by decide)⟩

end App
